import Mathlib

/-!
# Verification of the Strapi v4/v5 data-compatibility core

Shallow embedding of the repository's format detector, structural validator
(`src/data-validator.ts`), identifier mapper (`src/data-mapper.ts`) and
bidirectional data transformer (`src/data-transformer.ts`), together with
proofs and refutations of the specification's claims about them.

JavaScript values are modelled in two ways, matching how the two halves of the
code use them:

* the validator and format detector are pure functions over JSON-like payload
  trees, embedded as structural recursion over an inductive `Json` type;
* the transformer and the id mapper mutate shared state (object identity for
  the circular-reference cache, in-place mutation of `meta.pagination`, the
  in-memory mapping registry), so they are embedded over an explicit heap of
  numbered objects plus a state record, with a fuel parameter making the
  (in JavaScript, potentially non-terminating) recursion total: a `none`
  result means the recursion exceeded the given fuel at some call.
-/

set_option maxHeartbeats 1000000
set_option linter.unnecessarySeqFocus false
set_option linter.unreachableTactic false
set_option linter.unusedTactic false

namespace StrapiSpec

/-- JavaScript primitive values (`NaN` kept separate from other numbers since
`parseInt` can produce it and `Math.max`/`Math.min` propagate it). -/
inductive JsPrim where
  | null
  | undef
  | bool (b : Bool)
  | num (n : Int)
  | nan
  | str (s : String)
deriving DecidableEq, Repr

/-- The two Strapi data formats (`StrapiFormat` in `data-types.ts`). -/
inductive StrapiFormat where
  | v4
  | v5
deriving DecidableEq, Repr

/-- JSON-like payload trees: the domain of the pure validator/detector. -/
inductive Json where
  | prim (p : JsPrim)
  | arr (elems : List Json)
  | obj (fields : List (String × Json))
deriving Repr

namespace Json

mutual

/-- Boolean structural equality on payload trees (spelled out because the
nested `List` occurrences block the derive handler). -/
def eqb : Json → Json → Bool
  | .prim p, .prim q => p = q
  | .arr xs, .arr ys => eqbElems xs ys
  | .obj fs, .obj gs => eqbProps fs gs
  | _, _ => false

def eqbElems : List Json → List Json → Bool
  | [], [] => true
  | a :: as, b :: bs => eqb a b && eqbElems as bs
  | _, _ => false

def eqbProps : List (String × Json) → List (String × Json) → Bool
  | [], [] => true
  | (k, v) :: fs, (l, w) :: gs => k = l && eqb v w && eqbProps fs gs
  | _, _ => false

end

mutual

theorem eqb_iff_eq : ∀ a b : Json, eqb a b = true ↔ a = b
  | .prim p, .prim q => by simp [eqb]
  | .arr xs, .arr ys => by simp [eqb, eqbElems_iff_eq xs ys]
  | .obj fs, .obj gs => by simp [eqb, eqbProps_iff_eq fs gs]
  | .prim _, .arr _ => by simp [eqb]
  | .prim _, .obj _ => by simp [eqb]
  | .arr _, .prim _ => by simp [eqb]
  | .arr _, .obj _ => by simp [eqb]
  | .obj _, .prim _ => by simp [eqb]
  | .obj _, .arr _ => by simp [eqb]

theorem eqbElems_iff_eq :
    ∀ as bs : List Json, eqbElems as bs = true ↔ as = bs
  | [], [] => by simp [eqbElems]
  | a :: as, b :: bs => by
      simp [eqbElems, eqb_iff_eq a b, eqbElems_iff_eq as bs]
  | [], _ :: _ => by simp [eqbElems]
  | _ :: _, [] => by simp [eqbElems]

theorem eqbProps_iff_eq :
    ∀ fs gs : List (String × Json), eqbProps fs gs = true ↔ fs = gs
  | [], [] => by simp [eqbProps]
  | (k, v) :: fs, (l, w) :: gs => by
      simp [eqbProps, eqb_iff_eq v w, eqbProps_iff_eq fs gs]
  | [], _ :: _ => by simp [eqbProps]
  | _ :: _, [] => by simp [eqbProps]

end

instance : DecidableEq Json := fun a b => decidable_of_iff _ (eqb_iff_eq a b)

/-- JavaScript truthiness of a primitive. -/
def primTruthy : JsPrim → Bool
  | .null => false
  | .undef => false
  | .bool b => b
  | .num n => n != 0
  | .nan => false
  | .str s => s != ""

/-- JavaScript truthiness of a payload tree (arrays and objects are truthy). -/
def truthy : Json → Bool
  | .prim p => primTruthy p
  | .arr _ => true
  | .obj _ => true

/-- `typeof x === 'object'` (true for objects, arrays and `null`). -/
def isObjectType : Json → Bool
  | .prim .null => true
  | .arr _ => true
  | .obj _ => true
  | _ => false

/-- Field lookup in an object's field list; a missing key reads as
`undefined`, matching JavaScript property access. -/
def lookupField : List (String × Json) → String → Json
  | [], _ => .prim .undef
  | (k, v) :: fs, key => if k = key then v else lookupField fs key

/-- `x[key]` on an arbitrary value: non-objects give `undefined` (arrays have
no named fields in this model). -/
def getField : Json → String → Json
  | .obj fs, key => lookupField fs key
  | _, _ => (.prim .undef)

/-- The list of values an `Object.entries` loop visits: an object's field
values, an array's elements, nothing for primitives. -/
def entryVals : Json → List Json
  | .obj fs => fs.map Prod.snd
  | .arr xs => xs
  | _ => []

theorem one_le_sizeOf_list {α : Type} [SizeOf α] (xs : List α) : 1 ≤ sizeOf xs := by
  cases xs <;> simp <;> omega

theorem lookupField_sizeOf_le (fs : List (String × Json)) (k : String) :
    sizeOf (lookupField fs k) ≤ 1 + sizeOf fs := by
  induction fs with
  | nil => simp [lookupField]
  | cons f fs ih =>
    obtain ⟨k', v⟩ := f
    simp only [lookupField]
    split
    · simp; omega
    · have := ih
      simp at this ⊢
      omega

theorem getField_sizeOf_le (j : Json) (k : String) :
    sizeOf (getField j k) ≤ sizeOf j := by
  cases j with
  | obj fs =>
    have := lookupField_sizeOf_le fs k
    simp [getField]
    omega
  | arr xs =>
    have := one_le_sizeOf_list xs
    simp [getField]; omega
  | prim p => cases p <;> simp [getField] <;> omega

theorem sizeOf_map_snd_le (fs : List (String × Json)) :
    sizeOf (fs.map Prod.snd) ≤ sizeOf fs := by
  induction fs with
  | nil => simp
  | cons f fs ih =>
    obtain ⟨k, v⟩ := f
    simp at ih ⊢
    omega

theorem entryVals_sizeOf_lt (j : Json) : sizeOf (entryVals j) < sizeOf j := by
  cases j with
  | obj fs => have := sizeOf_map_snd_le fs; simp [entryVals] <;> omega
  | arr xs => simp [entryVals] <;> omega
  | prim p => cases p <;> simp [entryVals] <;> omega

end Json

/-- `ValidationOptions` with defaults already resolved
(`strict=false, allowMixed=false, checkRelations=true, maxDepth=5`). -/
structure ValidationOptions where
  strict : Bool
  allowMixed : Bool
  checkRelations : Bool
  maxDepth : Nat
deriving DecidableEq, Repr

def defaultValidationOptions : ValidationOptions :=
  ⟨false, false, true, 5⟩

/-- `Array.isArray`. -/
def Json.isArray : Json → Bool
  | .arr _ => true
  | _ => false

/-- `DataValidator.isRelationField` (`data-validator.ts` lines 163-175): under
v4 a relation is an object with a `data` key; under v5 an array or an object
carrying `documentId`. -/
def isRelationField (value : Json) (format : StrapiFormat) : Bool :=
  if !value.truthy || !value.isObjectType then false
  else match format with
    | .v4 => value.getField "data" != Json.prim .undef
    | .v5 => value.isArray || value.getField "documentId" != Json.prim .undef

mutual

/-- `DataValidator.validateItem` (lines 46-58): non-objects are accepted,
objects dispatch on the expected format. -/
def validateItem (item : Json) (expectedFormat : StrapiFormat)
    (o : ValidationOptions) : Bool :=
  if !item.truthy || !item.isObjectType then true
  else match expectedFormat with
    | .v4 => validateV4Item item o
    | .v5 => validateV5Item item o
termination_by sizeOf item * 8 + 6

/-- `DataValidator.validateV4Item` (lines 63-84). -/
def validateV4Item (item : Json) (o : ValidationOptions) : Bool :=
  if (item.getField "id").truthy && (item.getField "attributes").truthy
      && (item.getField "attributes").isObjectType then
    if o.checkRelations then validateRelations (item.getField "attributes") .v4 o
    else true
  else if (item.getField "id").truthy && !(item.getField "attributes").truthy
      && !o.strict then
    true
  else if o.allowMixed && (item.getField "documentId").truthy then
    true
  else
    false
termination_by sizeOf item * 8 + 4
decreasing_by
  have h1 := Json.getField_sizeOf_le item "attributes"
  omega

/-- `DataValidator.validateV5Item` (lines 89-110); the last branch is the
permissive unknown-shape fallback. -/
def validateV5Item (item : Json) (o : ValidationOptions) : Bool :=
  if (item.getField "documentId").truthy then
    if o.checkRelations then validateRelations item .v5 o else true
  else if o.allowMixed && (item.getField "id").truthy
      && (item.getField "attributes").truthy then
    true
  else if !o.strict && item.isObjectType && !(item.getField "id").truthy
      && !(item.getField "attributes").truthy then
    true
  else
    false
termination_by sizeOf item * 8 + 4

/-- `DataValidator.validateRelations` (lines 115-129): every object-valued
entry recognized as a relation field must validate. -/
def validateRelations (item : Json) (format : StrapiFormat)
    (o : ValidationOptions) : Bool :=
  if !item.truthy || !item.isObjectType then true
  else validRelVals item.entryVals format o
termination_by sizeOf item * 8 + 2
decreasing_by
  have := Json.entryVals_sizeOf_lt item
  omega

/-- The `for (const [key, value] of Object.entries(item))` loop body of
`validateRelations`, over the entry values. -/
def validRelVals (vals : List Json) (format : StrapiFormat)
    (o : ValidationOptions) : Bool :=
  match vals with
  | [] => true
  | v :: rest =>
    (if v.truthy && v.isObjectType && isRelationField v format then
       validateRelation v format o
     else true)
    && validRelVals rest format o
termination_by sizeOf vals * 8 + 7

/-- `DataValidator.validateRelation` (lines 134-158). -/
def validateRelation (relation : Json) (format : StrapiFormat)
    (o : ValidationOptions) : Bool :=
  if !relation.truthy then true
  else match format with
    | .v4 =>
      if relation.getField "data" != Json.prim .undef then
        match h : relation.getField "data" with
        | .arr xs => validItemList xs .v4 o
        | d => validateItem d .v4 o
      else true
    | .v5 =>
      match h2 : relation with
      | .arr xs => validItemList xs .v5 o
      | r =>
        if (r.getField "documentId").truthy then
          validateItem r .v5 o
        else true
termination_by sizeOf relation * 8 + 7
decreasing_by
  all_goals simp_wf
  all_goals try omega
  all_goals try
    (have h1 := Json.getField_sizeOf_le relation "data"
     rw [h] at h1
     simp at h1
     omega)
  all_goals try
    (have h1 := Json.getField_sizeOf_le relation "data"
     rw [h] at h1
     omega)
  all_goals try
    (subst h2
     omega)
  all_goals
    (subst h2
     simp
     omega)

/-- `relation.data.every(item => validateItem(item, ...))` /
`relation.every(...)`. -/
def validItemList (items : List Json) (format : StrapiFormat)
    (o : ValidationOptions) : Bool :=
  match items with
  | [] => true
  | x :: rest => validateItem x format o && validItemList rest format o
termination_by sizeOf items * 8 + 7

end

/-- `DataValidator.validateFormat` (lines 26-41): the fast boolean path. -/
def validateFormat (data : Json) (expectedFormat : StrapiFormat)
    (o : ValidationOptions) : Bool :=
  if !data.truthy then true
  else match data with
    | .arr xs => xs.all fun item => validateItem item expectedFormat o
    | _ => validateItem data expectedFormat o

/-- `typeof x`, as interpolated into diagnostic messages. -/
def jsTypeof : Json → String
  | .prim .null => "object"
  | .prim .undef => "undefined"
  | .prim (.bool _) => "boolean"
  | .prim (.num _) => "number"
  | .prim .nan => "number"
  | .prim (.str _) => "string"
  | .arr _ => "object"
  | .obj _ => "object"

/-- The key/value pairs an `Object.entries` loop visits (array entries are
indexed by their decimal position). -/
def jsEntries : Json → List (String × Json)
  | .obj fs => fs
  | .arr xs => xs.enum.map fun p => (toString p.1, p.2)
  | _ => []

/-- The per-item result the detailed validation helpers accumulate. -/
structure ItemCheck where
  isValid : Bool
  errors : List String
  warnings : List String
deriving DecidableEq, Repr

/-- `ValidationReport` from `data-types.ts`. -/
structure ValidationReport where
  isValid : Bool
  format : StrapiFormat
  itemCount : Nat
  validItems : Nat
  invalidItems : Nat
  errors : List String
  warnings : List String
deriving DecidableEq, Repr

/-- `DataValidator.validateRelationWithDetails` (lines 320-367); the inner
item checks reuse the fast `validateItem`. -/
def validateRelationWithDetails (relation : Json) (format : StrapiFormat)
    (o : ValidationOptions) (itemIndex : Nat) (fieldName : String) : ItemCheck :=
  if !relation.truthy then ⟨true, [], []⟩
  else match format with
  | .v4 =>
    if relation.getField "data" = Json.prim .undef then
      ⟨false,
       [s!"Item {itemIndex}, field '{fieldName}': v4 relation missing 'data' property"],
       []⟩
    else
      let relationItems := match relation.getField "data" with
        | .arr xs => xs
        | d => [d]
      let errs := relationItems.enum.filterMap fun ⟨relIndex, relItem⟩ =>
        if !validateItem relItem .v4 o then
          some s!"Item {itemIndex}, field '{fieldName}', relation {relIndex}: Invalid v4 format"
        else none
      ⟨errs.isEmpty, errs, []⟩
  | .v5 =>
    match relation with
    | .arr xs =>
      let errs := xs.enum.filterMap fun ⟨relIndex, relItem⟩ =>
        if !validateItem relItem .v5 o then
          some s!"Item {itemIndex}, field '{fieldName}', relation {relIndex}: Invalid v5 format"
        else none
      ⟨errs.isEmpty, errs, []⟩
    | _ =>
      if (relation.getField "documentId").truthy then
        if !validateItem relation .v5 o then
          ⟨false, [s!"Item {itemIndex}, field '{fieldName}': Invalid v5 relation format"], []⟩
        else ⟨true, [], []⟩
      else ⟨true, [], []⟩

/-- `DataValidator.validateRelationsWithDetails` (lines 286-315). -/
def validateRelationsWithDetails (item : Json) (format : StrapiFormat)
    (o : ValidationOptions) (index : Nat) : ItemCheck :=
  if !item.truthy || !item.isObjectType then ⟨true, [], []⟩
  else
    (jsEntries item).foldl (fun acc kv =>
      if kv.2.truthy && kv.2.isObjectType && isRelationField kv.2 format then
        let r := validateRelationWithDetails kv.2 format o index kv.1
        ⟨acc.isValid && r.isValid, acc.errors ++ r.errors, acc.warnings ++ r.warnings⟩
      else acc) ⟨true, [], []⟩

/-- `DataValidator.validateItemWithDetails` (lines 224-281): the detailed
per-item rules (note they differ from the fast path's). -/
def validateItemWithDetails (item : Json) (expectedFormat : StrapiFormat)
    (o : ValidationOptions) (index : Nat) : ItemCheck :=
  if !item.truthy || !item.isObjectType then
    let t := jsTypeof item
    ⟨false, [s!"Item {index}: Expected object, got {t}"], []⟩
  else
    let base : ItemCheck :=
      match expectedFormat with
      | .v4 =>
        let e1 := if !(item.getField "id").truthy then
            [s!"Item {index}: Missing required field 'id' for v4 format"] else []
        let e2 := if !(item.getField "attributes").truthy && o.strict then
            [s!"Item {index}: Missing required field 'attributes' for v4 format"] else []
        let w1 := if (item.getField "documentId").truthy && !o.allowMixed then
            [s!"Item {index}: Contains v5 field 'documentId' in v4 format"] else []
        ⟨e1.isEmpty && e2.isEmpty, e1 ++ e2, w1⟩
      | .v5 =>
        let e1 := if !(item.getField "documentId").truthy then
            [s!"Item {index}: Missing required field 'documentId' for v5 format"] else []
        let w1 := if (item.getField "attributes").truthy && !o.allowMixed then
            [s!"Item {index}: Contains v4 field 'attributes' in v5 format"] else []
        ⟨e1.isEmpty, e1, w1⟩
    if o.checkRelations then
      let r := validateRelationsWithDetails item expectedFormat o index
      ⟨base.isValid && r.isValid, base.errors ++ r.errors, base.warnings ++ r.warnings⟩
    else base

/-- The all-clear report `getValidationReport` starts from. -/
def emptyReport (expectedFormat : StrapiFormat) : ValidationReport :=
  ⟨true, expectedFormat, 0, 0, 0, [], []⟩

/-- `DataValidator.getValidationReport` (lines 180-219): the detailed path. -/
def getValidationReport (data : Json) (expectedFormat : StrapiFormat)
    (o : ValidationOptions) : ValidationReport :=
  if !data.truthy then emptyReport expectedFormat
  else
    let items := match data with | .arr xs => xs | d => [d]
    let step := fun (rep : ValidationReport) (p : Nat × Json) =>
      let c := validateItemWithDetails p.2 expectedFormat o p.1
      if c.isValid then
        { rep with validItems := rep.validItems + 1,
                   warnings := rep.warnings ++ c.warnings }
      else
        { rep with invalidItems := rep.invalidItems + 1,
                   errors := rep.errors ++ c.errors,
                   warnings := rep.warnings ++ c.warnings }
    let rep0 := { emptyReport expectedFormat with itemCount := items.length }
    let rep1 := items.enum.foldl step rep0
    { rep1 with isValid := rep1.invalidItems == 0 }

/-- The detector's four possible answers. -/
inductive DetectedFormat where
  | v4
  | v5
  | mixed
  | unknown
deriving DecidableEq, Repr

/-- `DataValidator.detectFormat` (lines 372-399): count per-item markers in
one pass, then aggregate.  A total function: its totality is the formal
counterpart of "never throws". -/
def detectFormat (data : Json) : DetectedFormat :=
  if !data.truthy then .unknown
  else
    let items := match data with | .arr xs => xs | d => [d]
    let counts := items.foldl (fun (acc : Nat × Nat × Nat) item =>
      if item.truthy && item.isObjectType then
        if item.getField "id" != Json.prim .undef
            && item.getField "attributes" != Json.prim .undef then
          (acc.1 + 1, acc.2.1, acc.2.2 + 1)
        else if item.getField "documentId" != Json.prim .undef then
          (acc.1, acc.2.1 + 1, acc.2.2 + 1)
        else (acc.1, acc.2.1, acc.2.2 + 1)
      else acc) (0, 0, 0)
    if counts.2.2 == 0 then .unknown
    else if counts.1 > 0 && counts.2.1 == 0 then .v4
    else if counts.2.1 > 0 && counts.1 == 0 then .v5
    else if counts.1 > 0 && counts.2.1 > 0 then .mixed
    else .unknown

/-!
## Heap model for the stateful half (`data-mapper.ts`, `data-transformer.ts`)

Objects and arrays live in a heap of numbered cells, so reference identity
(the `WeakSet` circular-reference cache, shallow copies, in-place mutation)
is expressible.  `Date.now()` and `Math.random()` are modelled by a
monotone counter (`clock`) in the state: the generated document ids stay
distinct across generations, as the wall-clock/randomness combination is
intended to make them; no other property of theirs is relied on.
-/

/-- A JavaScript value: a primitive or a reference to a heap cell. -/
inductive Val where
  | prim (p : JsPrim)
  | ref (a : Nat)
deriving DecidableEq, Repr

/-- A heap cell: a plain object (ordered fields) or an array. -/
inductive HObj where
  | obj (fields : List (String × Val))
  | arr (elems : List Val)
deriving DecidableEq, Repr

/-- One record of the id registry (`IdMapping` in `data-types.ts`). -/
structure IdMapping where
  v4Id : Val
  v5DocumentId : String
  contentType : String
  createdAt : String
deriving DecidableEq, Repr

/-- The mutable state threaded through the transformer: the heap plus the
`IdMapper` static maps, the `CIRCULAR_REF_CACHE` `WeakSet` (as the list of
addresses currently being visited) and the clock oracle. -/
structure TState where
  heap : List (Nat × HObj)
  nextAddr : Nat
  visiting : List Nat
  mappings : List (String × IdMapping)
  revMappings : List (String × IdMapping)
  clock : Nat
deriving DecidableEq, Repr

/-- Heap lookup (first entry wins, so prepending is both allocation and
update). -/
def hGet (h : List (Nat × HObj)) (a : Nat) : Option HObj :=
  match h.find? fun e => e.1 == a with
  | some e => some e.2
  | none => none

/-- JavaScript truthiness of a value (references are always truthy). -/
def vTruthy : Val → Bool
  | .prim p => Json.primTruthy p
  | .ref _ => true

/-- `typeof x === 'object'` over heap values. -/
def vIsObjectType : Val → Bool
  | .prim .null => true
  | .prim _ => false
  | .ref _ => true

/-- Field lookup in an object's field list (missing key reads `undefined`). -/
def lookupFieldV : List (String × Val) → String → Val
  | [], _ => .prim .undef
  | (k, v) :: fs, key => if k = key then v else lookupFieldV fs key

/-- `x[key]` through the heap; arrays and primitives have no named fields. -/
def getFieldV (h : List (Nat × HObj)) (v : Val) (key : String) : Val :=
  match v with
  | .ref a =>
    match hGet h a with
    | some (.obj fs) => lookupFieldV fs key
    | _ => .prim .undef
  | .prim _ => (.prim .undef)

/-- `Array.isArray` through the heap. -/
def vIsArray (h : List (Nat × HObj)) (v : Val) : Bool :=
  match v with
  | .ref a => match hGet h a with
    | some (.arr _) => true
    | _ => false
  | .prim _ => false

/-- Property assignment on a field list: overwrite in place if the key
exists (JavaScript keeps the original insertion position), else append. -/
def setFieldV (fs : List (String × Val)) (key : String) (v : Val) :
    List (String × Val) :=
  match fs with
  | [] => [(key, v)]
  | (k, w) :: rest =>
    if k = key then (k, v) :: rest else (k, w) :: setFieldV rest key v

/-- Remove a field (object rest-destructuring drops the named keys). -/
def removeFieldV (fs : List (String × Val)) (key : String) :
    List (String × Val) :=
  fs.filter fun e => e.1 ≠ key

/-- Spread `{...base, ...src}`: fold property assignment of `src`'s fields
onto `base`. -/
def spreadOnto (base : List (String × Val)) (src : List (String × Val)) :
    List (String × Val) :=
  src.foldl (fun acc kv => setFieldV acc kv.1 kv.2) base

/-- The own enumerable entries `{...x}` copies: an object's fields, an
array's or string's indexed elements, nothing for other primitives. -/
def spreadFields (h : List (Nat × HObj)) (v : Val) : List (String × Val) :=
  match v with
  | .ref a =>
    match hGet h a with
    | some (.obj fs) => fs
    | some (.arr xs) => xs.enum.map fun p => (toString p.1, p.2)
    | none => []
  | .prim (.str s) => s.toList.enum.map fun p => (toString p.1, .prim (.str (String.mk [p.2])))
  | .prim _ => []

/-- Allocate a fresh heap cell, returning its reference. -/
def allocObj (s : TState) (o : HObj) : Val × TState :=
  (.ref s.nextAddr,
   { s with heap := (s.nextAddr, o) :: s.heap, nextAddr := s.nextAddr + 1 })

/-- String coercion of a primitive (template literals, `parseInt`). -/
def primToString : JsPrim → String
  | .null => "null"
  | .undef => "undefined"
  | .bool true => "true"
  | .bool false => "false"
  | .num n => toString n
  | .nan => "NaN"
  | .str s => s

/-- String coercion of a value as used for registry keys: primitives
coerce exactly; objects coerce to `[object Object]`.  (The recursive
`Array.prototype.toString` join is cut off at refs: registry ids are
strings or numbers in every use the code makes.) -/
def jsKeyString (h : List (Nat × HObj)) (v : Val) : String :=
  match v with
  | .prim p => primToString p
  | .ref a =>
    match hGet h a with
    | some (.arr xs) =>
      String.intercalate "," (xs.map fun x =>
        match x with
        | .prim .null => ""
        | .prim .undef => ""
        | .prim p => primToString p
        | .ref _ => "")
    | _ => "[object Object]"

/-- Association-list re-binding with `Map.set` semantics: overwrite an
existing key in place, else append (iteration stays in insertion order). -/
def setAssoc {α : Type} (ms : List (String × α)) (key : String) (m : α) :
    List (String × α) :=
  match ms with
  | [] => [(key, m)]
  | (k, w) :: rest =>
    if k = key then (k, m) :: rest else (k, w) :: setAssoc rest key m

/-- `Map.get`. -/
def lookupAssoc {α : Type} (ms : List (String × α)) (key : String) :
    Option α :=
  match ms with
  | [] => none
  | (k, m) :: rest => if k = key then some m else lookupAssoc rest key

/-- `Map.delete` (by key). -/
def deleteAssoc {α : Type} (ms : List (String × α)) (key : String) :
    List (String × α) :=
  ms.filter fun e => e.1 ≠ key

/-- Strip `pat` from the front of `cs`, or report that it does not start
there. -/
def stripLead : List Char → List Char → Option (List Char)
  | [], cs => some cs
  | _ :: _, [] => none
  | p :: ps, c :: cs => if p = c then stripLead ps cs else none

/-- Remove the first occurrence of a pattern (the `String.replace` call
with a string pattern replaces only the first match). -/
def removeFirstOccur (pat : List Char) : List Char → List Char
  | [] => []
  | c :: cs =>
    match stripLead pat (c :: cs) with
    | some rest => rest
    | none => c :: removeFirstOccur pat cs

/-- `contentType.replace('api::', '')`. -/
def dropApiMarker (s : String) : String :=
  String.mk (removeFirstOccur "api::".toList s.toList)

/-- Delete a trailing `.suffix` (the `/\.[^.]+$/` replace): drop from the
last dot on, provided at least one non-dot character follows it. -/
def dropDotTail (s : String) : String :=
  let rev := s.toList.reverse
  let pre := rev.takeWhile fun c => c ≠ '.'
  if pre.length = rev.length then s
  else if pre.isEmpty then s
  else String.mk ((rev.drop (pre.length + 1)).reverse)

/-- `IdMapper.generateDocumentId` (`data-mapper.ts` lines 72-81), with the
timestamp and the random suffix both drawn from the clock oracle. -/
def generateDocumentId (v4Id : Val) (contentType : String)
    (h : List (Nat × HObj)) (clk : Nat) : String :=
  let cleanContentType := dropDotTail (dropApiMarker contentType)
  cleanContentType ++ "_" ++ jsKeyString h v4Id ++ "_" ++ toString clk
    ++ "_" ++ "r" ++ toString clk

/-- `IdMapper.mapV4ToV5` (lines 19-41): return the registered document id,
or synthesize one and record it in both indices. -/
def mapV4ToV5 (v4Id : Val) (contentType : String) (s : TState) :
    String × TState :=
  let key := contentType ++ ":" ++ jsKeyString s.heap v4Id
  match lookupAssoc s.mappings key with
  | some m => (m.v5DocumentId, s)
  | none =>
    let documentId := generateDocumentId v4Id contentType s.heap s.clock
    let newMapping : IdMapping :=
      ⟨v4Id, documentId, contentType, toString s.clock⟩
    (documentId,
     { s with mappings := setAssoc s.mappings key newMapping,
              revMappings := setAssoc s.revMappings documentId newMapping,
              clock := s.clock + 1 })

/-- The first run of decimal digits in a string (`/(\d+)/`). -/
def firstDigitRun (s : String) : Option String :=
  let cs := s.toList.dropWhile fun c => !c.isDigit
  match cs.takeWhile Char.isDigit with
  | [] => none
  | ds => some (String.mk ds)

/-- Decimal digits to a number (`parseInt` on a digit run). -/
def digitsToInt (ds : String) : Int :=
  (ds.toList.foldl (fun acc c => acc * 10 + (c.toNat - '0'.toNat)) 0 : Nat)

/-- The forward-index scan and numeric fallback of `mapV5ToV4`
(lines 53-66). -/
def mapV5ToV4Scan (d : String) (contentType : String) (s : TState) :
    Option Val :=
  match s.mappings.find? fun e =>
      e.2.v5DocumentId == d && e.2.contentType == contentType with
  | some e => some e.2.v4Id
  | none =>
    match firstDigitRun d with
    | some ds => some (.prim (.num (digitsToInt ds)))
    | none => some (.prim (.str d))

/-- `IdMapper.mapV5ToV4` (lines 46-67): reverse index, then a scan of the
forward index, then the numeric-substring heuristic.  `none` models the
`TypeError` of calling `.match` on a non-string document id. -/
def mapV5ToV4 (documentId : Val) (contentType : String) (s : TState) :
    Option Val :=
  match documentId with
  | .prim (.str d) =>
    match lookupAssoc s.revMappings d with
    | some m =>
      if m.contentType = contentType then some m.v4Id
      else mapV5ToV4Scan d contentType s
    | none => mapV5ToV4Scan d contentType s
  | _ => none

/-- `IdMapper.hasMapping` (lines 86-89). -/
def hasMapping (v4Id : Val) (contentType : String) (s : TState) : Bool :=
  (lookupAssoc s.mappings (contentType ++ ":" ++ jsKeyString s.heap v4Id)).isSome

/-- `IdMapper.clearMappings` (lines 117-120). -/
def clearMappings (s : TState) : TState :=
  { s with mappings := [], revMappings := [] }

/-- `IdMapper.clearMappingsForContentType` (lines 125-138): collect the
forward keys and document ids of the content type, then delete both. -/
def clearMappingsForContentType (contentType : String) (s : TState) : TState :=
  let keysToDelete := (s.mappings.filter fun e =>
    e.2.contentType = contentType).map Prod.fst
  let documentIdsToDelete := (s.mappings.filter fun e =>
    e.2.contentType = contentType).map fun e => e.2.v5DocumentId
  { s with
    mappings := keysToDelete.foldl deleteAssoc s.mappings,
    revMappings := documentIdsToDelete.foldl deleteAssoc s.revMappings }

/-- `IdMapper.importMappings` (lines 188-202) on already-parsed entries
(the `JSON.parse` of the export format and its thrown wrapper on corrupt
text are elided): clear, then rebuild both indices entry by entry. -/
def importMappings (entries : List (String × IdMapping)) (s : TState) :
    TState :=
  entries.foldl
    (fun acc e =>
      { acc with
        mappings := setAssoc acc.mappings e.1 e.2,
        revMappings := setAssoc acc.revMappings e.2.v5DocumentId e.2 })
    (clearMappings s)

/-- `pagination.page || defaultValue`: truthiness-based defaulting. -/
def jsOr (a b : Val) : Val :=
  if vTruthy a then a else b

/-- `parseInt(x, 10)`: coerce to a string, skip leading whitespace, read an
optional sign and then decimal digits; no digits gives `NaN`. -/
def jsParseInt (h : List (Nat × HObj)) (v : Val) : JsPrim :=
  let cs := (jsKeyString h v).toList.dropWhile fun c =>
    c = ' ' || c = '\t' || c = '\n' || c = '\r'
  match cs with
  | '-' :: rest =>
    match rest.takeWhile Char.isDigit with
    | [] => .nan
    | ds => .num (-(digitsToInt (String.mk ds)))
  | '+' :: rest =>
    match rest.takeWhile Char.isDigit with
    | [] => .nan
    | ds => .num (digitsToInt (String.mk ds))
  | _ =>
    match cs.takeWhile Char.isDigit with
    | [] => .nan
    | ds => .num (digitsToInt (String.mk ds))

/-- `Math.max(lo, x)` with a number constant on the left: `NaN` propagates. -/
def jsMaxConst (lo : Int) (p : JsPrim) : JsPrim :=
  match p with
  | .num n => .num (max lo n)
  | _ => .nan

/-- `Math.min(hi, x)` with a number constant on the left: `NaN` propagates. -/
def jsMinConst (hi : Int) (p : JsPrim) : JsPrim :=
  match p with
  | .num n => .num (min hi n)
  | _ => .nan

/-- `PaginationMapper.normalizePagination` (`data-mapper.ts` lines 241-250):
coerce each field through `parseInt` with truthiness defaults, then clamp. -/
def normalizePagination (pagination : Val) (s : TState) : Val × TState :=
  if !vTruthy pagination then (.prim .undef, s)
  else
    let pageP := jsParseInt s.heap
      (jsOr (getFieldV s.heap pagination "page") (.prim (.str "1")))
    let pageSizeP := jsParseInt s.heap
      (jsOr (getFieldV s.heap pagination "pageSize") (.prim (.str "25")))
    let pageCountP := jsParseInt s.heap
      (jsOr (getFieldV s.heap pagination "pageCount") (.prim (.str "1")))
    let totalP := jsParseInt s.heap
      (jsOr (getFieldV s.heap pagination "total") (.prim (.str "0")))
    allocObj s (.obj
      [("page", .prim (jsMaxConst 1 pageP)),
       ("pageSize", .prim (jsMinConst 100 (jsMaxConst 1 pageSizeP))),
       ("pageCount", .prim (jsMaxConst 1 pageCountP)),
       ("total", .prim (jsMaxConst 0 totalP))])

/-- `TransformationOptions` with defaults already resolved
(`contentType="unknown"`, `preserveOriginalId=true`, `validateResult=false`,
`depth=0`); `transform` itself re-applies the `||`-defaulting of
`contentType`. -/
structure TransformationOptions where
  contentType : String
  preserveOriginalId : Bool
  validateResult : Bool
  depth : Nat
deriving DecidableEq, Repr

def defaultTransformOptions : TransformationOptions :=
  ⟨"unknown", true, false, 0⟩

/-- `AdvancedDataTransformer.MAX_DEPTH`. -/
def MAX_DEPTH : Nat := 10

/-- The array elements of a value, when it is a reference to an array. -/
def getArr (h : List (Nat × HObj)) (v : Val) : Option (List Val) :=
  match v with
  | .ref a =>
    match hGet h a with
    | some (.arr xs) => some xs
    | _ => none
  | .prim _ => none

/-- `AdvancedDataTransformer.isRelationData` (`data-transformer.ts`
lines 262-274). -/
def isRelationDataV (h : List (Nat × HObj)) (data : Val)
    (format : StrapiFormat) : Bool :=
  if !vTruthy data || !vIsObjectType data then false
  else match format with
    | .v4 => getFieldV h data "data" != Val.prim .undef
    | .v5 => vIsArray h data
        || getFieldV h data "documentId" != (Val.prim .undef)

/-- `AdvancedDataTransformer.isMediaData` (lines 279-287). -/
def isMediaDataV (h : List (Nat × HObj)) (data : Val) : Bool :=
  if !vTruthy data || !vIsObjectType data then false
  else
    (["url", "mime", "hash", "ext", "size"].any fun f =>
      getFieldV h data f != Val.prim .undef)
    && (getFieldV h data "id" != Val.prim .undef
        || getFieldV h data "documentId" != Val.prim .undef)

/-- `MediaMapper.transformV4MediaToV5` (`data-mapper.ts` lines 280-290). -/
def transformV4MediaToV5 (media : Val) (s : TState) : Val × TState :=
  if !vTruthy media || !vTruthy (getFieldV s.heap media "attributes") then
    (media, s)
  else
    let idV := getFieldV s.heap media "id"
    let attributesV := getFieldV s.heap media "attributes"
    let (documentId, s1) := mapV4ToV5 idV "media" s
    allocObj s1 (.obj (spreadOnto
      [("documentId", .prim (.str documentId)), ("id", idV)]
      (spreadFields s1.heap attributesV)))

/-- `MediaMapper.transformV5MediaToV4` (lines 295-304). -/
def transformV5MediaToV4 (media : Val) (s : TState) : Option (Val × TState) :=
  if !vTruthy media || !vTruthy (getFieldV s.heap media "documentId") then
    some (media, s)
  else
    let documentIdV := getFieldV s.heap media "documentId"
    let idV := getFieldV s.heap media "id"
    let attrFields :=
      removeFieldV (removeFieldV (spreadFields s.heap media) "documentId") "id"
    match (if vTruthy idV then some idV else mapV5ToV4 documentIdV "media" s) with
    | none => none
    | some finalId =>
      let (attrsRef, s1) := allocObj s (.obj attrFields)
      some (allocObj s1 (.obj [("id", finalId), ("attributes", attrsRef)]))

/-- `MediaMapper.transformMedia` (lines 261-275). -/
def transformMediaV (media : Val) (sourceFormat targetFormat : StrapiFormat)
    (s : TState) : Option (Val × TState) :=
  if !vTruthy media || sourceFormat == targetFormat then some (media, s)
  else match sourceFormat, targetFormat with
    | .v4, .v5 => some (transformV4MediaToV5 media s)
    | .v5, .v4 => transformV5MediaToV4 media s
    | _, _ => some (media, s)

mutual

/-- `AdvancedDataTransformer.transform` (lines 28-78): identity
short-circuit, option defaulting, depth guard, circular-reference guard,
format dispatch, and the `finally` removal of the visiting marker.  The
fuel decreases at every inner call; `none` means the JavaScript recursion
would still be running (or the stack overflowed) at that depth of calls. -/
def transform : Nat → Val → StrapiFormat → StrapiFormat →
    TransformationOptions → TState → Option (Val × TState)
  | 0, _, _, _, _, _ => none
  | fuel + 1, data, sourceFormat, targetFormat, options, s =>
    if sourceFormat == targetFormat then some (data, s)
    else
      let opts : TransformationOptions :=
        { options with
          contentType :=
            if options.contentType = "" then "unknown" else options.contentType }
      if opts.depth > MAX_DEPTH then some (data, s)
      else match data with
        | .ref a =>
          if s.visiting.contains a then
            some (allocObj s (.obj [("__circular_ref", .prim (.bool true))]))
          else
            let s1 := { s with visiting := a :: s.visiting }
            match transformCore fuel data sourceFormat targetFormat opts s1 with
            | none => none
            | some (v, s2) => some (v, { s2 with visiting := s2.visiting.erase a })
        | .prim _ => transformCore fuel data sourceFormat targetFormat opts s

/-- The `try` body of `transform`: dispatch on the format pair. -/
def transformCore : Nat → Val → StrapiFormat → StrapiFormat →
    TransformationOptions → TState → Option (Val × TState)
  | 0, _, _, _, _, _ => none
  | fuel + 1, data, sourceFormat, targetFormat, opts, s =>
    match sourceFormat, targetFormat with
    | .v4, .v5 => transformV4ToV5 fuel data opts s
    | .v5, .v4 => transformV5ToV4 fuel data opts s
    | _, _ => some (data, s)

/-- `AdvancedDataTransformer.transformV4ToV5` (lines 83-91). -/
def transformV4ToV5 : Nat → Val → TransformationOptions → TState →
    Option (Val × TState)
  | 0, _, _, _ => none
  | fuel + 1, data, opts, s =>
    if !vTruthy data then some (data, s)
    else match getArr s.heap data with
      | some xs =>
        match mapItemsV4ToV5 fuel xs opts s with
        | none => none
        | some (ys, s1) => some (allocObj s1 (.arr ys))
      | none => transformV4ItemToV5 fuel data opts s

/-- `data.map(item => transformV4ItemToV5(item, options))`. -/
def mapItemsV4ToV5 : Nat → List Val → TransformationOptions → TState →
    Option (List Val × TState)
  | _, [], _, s => some ([], s)
  | 0, _ :: _, _, _ => none
  | fuel + 1, x :: rest, opts, s =>
    match transformV4ItemToV5 fuel x opts s with
    | none => none
    | some (y, s1) =>
      match mapItemsV4ToV5 fuel rest opts s1 with
      | none => none
      | some (ys, s2) => some (y :: ys, s2)

/-- `AdvancedDataTransformer.transformV4ItemToV5` (lines 96-137). -/
def transformV4ItemToV5 : Nat → Val → TransformationOptions → TState →
    Option (Val × TState)
  | 0, _, _, _ => none
  | fuel + 1, item, opts, s =>
    if !vTruthy item || !vIsObjectType item then some (item, s)
    else
      let idV := getFieldV s.heap item "id"
      let attributesV := getFieldV s.heap item "attributes"
      if vTruthy idV && vTruthy attributesV then
        let (documentId, s1) := mapV4ToV5 idV opts.contentType s
        let fields0 := spreadOnto [("documentId", .prim (.str documentId))]
          (spreadFields s1.heap attributesV)
        let fields1 :=
          if opts.preserveOriginalId then setFieldV fields0 "id" idV else fields0
        match transformFieldsNested fuel fields1 .v4 .v5
            { opts with depth := opts.depth + 1 } s1 with
        | none => none
        | some (fields2, s2) => some (allocObj s2 (.obj fields2))
      else if vTruthy idV && !vTruthy attributesV then
        let rest := removeFieldV (spreadFields s.heap item) "id"
        let (documentId, s1) := mapV4ToV5 idV opts.contentType s
        some (allocObj s1 (.obj (spreadOnto
          [("documentId", .prim (.str documentId)),
           ("id", if opts.preserveOriginalId then idV else .prim .undef)]
          rest)))
      else some (item, s)

/-- The `Object.keys(result).forEach` loop shared by both item converters:
each object-valued field goes through `transformNestedData` at depth+1
(the caller bumps the depth); other fields pass through. -/
def transformFieldsNested : Nat → List (String × Val) → StrapiFormat →
    StrapiFormat → TransformationOptions → TState →
    Option (List (String × Val) × TState)
  | _, [], _, _, _, s => some ([], s)
  | 0, _ :: _, _, _, _, _ => none
  | fuel + 1, (k, v) :: rest, sourceFormat, targetFormat, opts, s =>
    if vTruthy v && vIsObjectType v then
      match transformNestedData fuel v sourceFormat targetFormat opts s with
      | none => none
      | some (w, s1) =>
        match transformFieldsNested fuel rest sourceFormat targetFormat
            opts s1 with
        | none => none
        | some (rest2, s2) => some ((k, w) :: rest2, s2)
    else
      match transformFieldsNested fuel rest sourceFormat targetFormat
          opts s with
      | none => none
      | some (rest2, s2) => some ((k, v) :: rest2, s2)

/-- `AdvancedDataTransformer.transformV5ToV4` (lines 142-150). -/
def transformV5ToV4 : Nat → Val → TransformationOptions → TState →
    Option (Val × TState)
  | 0, _, _, _ => none
  | fuel + 1, data, opts, s =>
    if !vTruthy data then some (data, s)
    else match getArr s.heap data with
      | some xs =>
        match mapItemsV5ToV4 fuel xs opts s with
        | none => none
        | some (ys, s1) => some (allocObj s1 (.arr ys))
      | none => transformV5ItemToV4 fuel data opts s

/-- `data.map(item => transformV5ItemToV4(item, options))`. -/
def mapItemsV5ToV4 : Nat → List Val → TransformationOptions → TState →
    Option (List Val × TState)
  | _, [], _, s => some ([], s)
  | 0, _ :: _, _, _ => none
  | fuel + 1, x :: rest, opts, s =>
    match transformV5ItemToV4 fuel x opts s with
    | none => none
    | some (y, s1) =>
      match mapItemsV5ToV4 fuel rest opts s1 with
      | none => none
      | some (ys, s2) => some (y :: ys, s2)

/-- `AdvancedDataTransformer.transformV5ItemToV4` (lines 155-181). -/
def transformV5ItemToV4 : Nat → Val → TransformationOptions → TState →
    Option (Val × TState)
  | 0, _, _, _ => none
  | fuel + 1, item, opts, s =>
    if !vTruthy item || !vIsObjectType item then some (item, s)
    else
      let documentIdV := getFieldV s.heap item "documentId"
      if vTruthy documentIdV then
        let idV := getFieldV s.heap item "id"
        let attrs0 :=
          removeFieldV (removeFieldV (spreadFields s.heap item) "documentId") "id"
        match transformFieldsNested fuel attrs0 .v5 .v4
            { opts with depth := opts.depth + 1 } s with
        | none => none
        | some (attrs1, s1) =>
          match (if vTruthy idV then some idV
                 else mapV5ToV4 documentIdV opts.contentType s1) with
          | none => none
          | some finalId =>
            let (attrsRef, s2) := allocObj s1 (.obj attrs1)
            some (allocObj s2 (.obj [("id", finalId), ("attributes", attrsRef)]))
      else some (item, s)

/-- `AdvancedDataTransformer.transformNestedData` (lines 186-215): relation
data, then media, then arrays, then plain objects back through `transform`. -/
def transformNestedData : Nat → Val → StrapiFormat → StrapiFormat →
    TransformationOptions → TState → Option (Val × TState)
  | 0, _, _, _, _, _ => none
  | fuel + 1, data, sourceFormat, targetFormat, opts, s =>
    if !vTruthy data then some (data, s)
    else if isRelationDataV s.heap data sourceFormat then
      transformRelationData fuel data sourceFormat targetFormat opts s
    else if isMediaDataV s.heap data then
      transformMediaV data sourceFormat targetFormat s
    else match getArr s.heap data with
      | some xs =>
        match mapNestedList fuel xs sourceFormat targetFormat opts s with
        | none => none
        | some (ys, s1) => some (allocObj s1 (.arr ys))
      | none =>
        if vIsObjectType data then
          transform fuel data sourceFormat targetFormat opts s
        else some (data, s)

/-- `data.map(item => transformNestedData(item, ...))`. -/
def mapNestedList : Nat → List Val → StrapiFormat → StrapiFormat →
    TransformationOptions → TState → Option (List Val × TState)
  | _, [], _, _, _, s => some ([], s)
  | 0, _ :: _, _, _, _, _ => none
  | fuel + 1, x :: rest, sourceFormat, targetFormat, opts, s =>
    match transformNestedData fuel x sourceFormat targetFormat opts s with
    | none => none
    | some (y, s1) =>
      match mapNestedList fuel rest sourceFormat targetFormat opts s1 with
      | none => none
      | some (ys, s2) => some (y :: ys, s2)

/-- `AdvancedDataTransformer.transformRelationData` (lines 220-257): note
the direct `transformV4ItemToV5`/`transformV5ItemToV4` calls, which do not
pass back through `transform` and its guards. -/
def transformRelationData : Nat → Val → StrapiFormat → StrapiFormat →
    TransformationOptions → TState → Option (Val × TState)
  | 0, _, _, _, _, _ => none
  | fuel + 1, relationData, sourceFormat, targetFormat, opts, s =>
    if !vTruthy relationData then some (relationData, s)
    else if sourceFormat == .v4 && targetFormat == .v5 then
      let d := getFieldV s.heap relationData "data"
      if vTruthy d then
        match getArr s.heap d with
        | some xs =>
          match mapItemsV4ToV5 fuel xs { opts with contentType := "relation" } s with
          | none => none
          | some (ys, s1) => some (allocObj s1 (.arr ys))
        | none =>
          transformV4ItemToV5 fuel d { opts with contentType := "relation" } s
      else some (relationData, s)
    else if sourceFormat == .v5 && targetFormat == .v4 then
      match getArr s.heap relationData with
      | some xs =>
        match mapItemsV5ToV4 fuel xs { opts with contentType := "relation" } s with
        | none => none
        | some (ys, s1) =>
          let (arrRef, s2) := allocObj s1 (.arr ys)
          some (allocObj s2 (.obj [("data", arrRef)]))
      | none =>
        if vTruthy (getFieldV s.heap relationData "documentId") then
          match transformV5ItemToV4 fuel relationData
              { opts with contentType := "relation" } s with
          | none => none
          | some (y, s1) => some (allocObj s1 (.obj [("data", y)]))
        else some (relationData, s)
    else some (relationData, s)

/-- `items.map(item => transform(item, sourceFormat, targetFormat, options))`
as used by `batchTransform`. -/
def mapTransformList : Nat → List Val → StrapiFormat → StrapiFormat →
    TransformationOptions → TState → Option (List Val × TState)
  | _, [], _, _, _, s => some ([], s)
  | 0, _ :: _, _, _, _, _ => none
  | fuel + 1, x :: rest, sourceFormat, targetFormat, options, s =>
    match transform fuel x sourceFormat targetFormat options s with
    | none => none
    | some (y, s1) =>
      match mapTransformList fuel rest sourceFormat targetFormat
          options s1 with
      | none => none
      | some (ys, s2) => some (y :: ys, s2)

end

/-- `AdvancedDataTransformer.batchTransform` (lines 335-346): throw on a
non-array (the `.error` case), else map `transform` over the items (the
`.map` allocates the result array). -/
def batchTransform (fuel : Nat) (items : Val)
    (sourceFormat targetFormat : StrapiFormat)
    (options : TransformationOptions) (s : TState) :
    Except String (Option (Val × TState)) :=
  match getArr s.heap items with
  | none => .error "batchTransform requires an array of items"
  | some xs =>
    match mapTransformList fuel xs sourceFormat targetFormat options s with
    | none => .ok none
    | some (ys, s1) => .ok (some (allocObj s1 (.arr ys)))

/-- The four normalized fields `transformPagination` builds
(`data-transformer.ts` lines 321-330): truthiness defaults, no clamping. -/
def transformPaginationFields (h : List (Nat × HObj)) (pagination : Val) :
    List (String × Val) :=
  [("page", jsOr (getFieldV h pagination "page") (.prim (.num 1))),
   ("pageSize", jsOr (getFieldV h pagination "pageSize") (.prim (.num 25))),
   ("pageCount", jsOr (getFieldV h pagination "pageCount") (.prim (.num 1))),
   ("total", jsOr (getFieldV h pagination "total") (.prim (.num 0)))]

/-- `AdvancedDataTransformer.transformResponse` (lines 292-316): shallow
copy of the envelope; transform `data` if truthy; if `meta?.pagination` is
truthy, write the rebuilt pagination into the (shared) `meta` object. -/
def transformResponse (fuel : Nat) (response : Val)
    (sourceFormat targetFormat : StrapiFormat)
    (options : TransformationOptions) (s : TState) : Option (Val × TState) :=
  if !vTruthy response || sourceFormat == targetFormat then some (response, s)
  else
    let fields := spreadFields s.heap response
    match (if vTruthy (lookupFieldV fields "data") then
            match transform fuel (lookupFieldV fields "data") sourceFormat
                targetFormat options s with
            | none => none
            | some (d, s1) => some (setFieldV fields "data" d, s1)
           else some (fields, s)) with
    | none => none
    | some (fields1, s1) =>
      let metaV := lookupFieldV fields1 "meta"
      let pagV := getFieldV s1.heap metaV "pagination"
      if vTruthy pagV then
        let (pagRef, s2) :=
          allocObj s1 (.obj (transformPaginationFields s1.heap pagV))
        match metaV with
        | .ref m =>
          match hGet s2.heap m with
          | some (.obj mfs) =>
            let s3 := { s2 with
              heap := (m, .obj (setFieldV mfs "pagination" pagRef)) :: s2.heap }
            some (allocObj s3 (.obj fields1))
          | _ => some (allocObj s2 (.obj fields1))
        | .prim _ => some (allocObj s2 (.obj fields1))
      else some (allocObj s1 (.obj fields1))

/-!
## Theorems

### C5 — `detectFormat` classification
-/

/-- Follows the spec's words: an item is legacy-like iff it has both an
`id` and an `attributes` property. -/
def specLegacyLike (item : Json) : Bool :=
  item.getField "id" != Json.prim .undef
    && item.getField "attributes" != (Json.prim .undef)

/-- Follows the spec's words: an item is modern-like iff it has a
`documentId` property. -/
def specModernLike (item : Json) : Bool :=
  item.getField "documentId" != (Json.prim .undef)

/-- A bare value is treated as a one-element array. -/
def toItems (data : Json) : List Json :=
  match data with
  | .arr xs => xs
  | d => [d]

/-- The claim's aggregate rule exactly as stated, with the two per-item
rules independent of each other (an item can be both legacy-like and
modern-like). -/
def specDetectClaim (data : Json) : DetectedFormat :=
  if !data.truthy then .unknown
  else
    let items := (toItems data).filter fun j => j.truthy && j.isObjectType
    let cls := items.filter fun j => specLegacyLike j || specModernLike j
    if cls.isEmpty then .unknown
    else if cls.all specLegacyLike && cls.all (fun j => !specModernLike j) then .v4
    else if cls.all specModernLike && cls.all (fun j => !specLegacyLike j) then .v5
    else if cls.any specLegacyLike && cls.any specModernLike then .mixed
    else .unknown

/-- The claim's aggregate rule amended as the code forces: the legacy test
takes priority, so an item counts as modern-like only when it is not
legacy-like. -/
def specDetectAmended (data : Json) : DetectedFormat :=
  if !data.truthy then .unknown
  else
    let items := (toItems data).filter fun j => j.truthy && j.isObjectType
    let legacy := items.countP specLegacyLike
    let modern := items.countP fun j => !specLegacyLike j && specModernLike j
    if items.isEmpty then .unknown
    else if legacy > 0 && modern == 0 then .v4
    else if modern > 0 && legacy == 0 then .v5
    else if legacy > 0 && modern > 0 then .mixed
    else .unknown

theorem detectCounts_fold (items : List Json) (a b c : Nat) :
    items.foldl (fun (acc : Nat × Nat × Nat) item =>
      if item.truthy && item.isObjectType then
        if item.getField "id" != Json.prim .undef
            && item.getField "attributes" != Json.prim .undef then
          (acc.1 + 1, acc.2.1, acc.2.2 + 1)
        else if item.getField "documentId" != Json.prim .undef then
          (acc.1, acc.2.1 + 1, acc.2.2 + 1)
        else (acc.1, acc.2.1, acc.2.2 + 1)
      else acc) (a, b, c) =
    (a + (items.filter fun j => j.truthy && j.isObjectType).countP specLegacyLike,
     b + (items.filter fun j => j.truthy && j.isObjectType).countP
          (fun j => !specLegacyLike j && specModernLike j),
     c + (items.filter fun j => j.truthy && j.isObjectType).length) := by
  induction items generalizing a b c with
  | nil => simp
  | cons x rest ih =>
    simp only [List.foldl_cons, List.filter_cons]
    by_cases hobj : (x.truthy && x.isObjectType) = true
    · rw [if_pos hobj, if_pos hobj]
      by_cases hleg : (x.getField "id" != Json.prim .undef
          && x.getField "attributes" != Json.prim .undef) = true
      · rw [if_pos hleg, ih]
        have h1 : specLegacyLike x = true := hleg
        simp [List.countP_cons, List.length_cons, h1, Prod.mk.injEq]
        try omega
      · rw [if_neg hleg]
        have h1 : specLegacyLike x = false := by
          simpa [specLegacyLike] using hleg
        by_cases hmod : (x.getField "documentId" != Json.prim .undef) = true
        · rw [if_pos hmod, ih]
          have h2 : specModernLike x = true := hmod
          simp [List.countP_cons, List.length_cons, h1, h2, Prod.mk.injEq]
          try omega
        · rw [if_neg hmod, ih]
          have h2 : specModernLike x = false := by
            simpa [specModernLike] using hmod
          simp [List.countP_cons, List.length_cons, h1, h2, Prod.mk.injEq]
          try omega
    · rw [if_neg hobj, if_neg hobj, ih]

theorem length_beq_zero_eq_isEmpty (l : List Json) :
    (l.length == 0) = l.isEmpty := by
  cases l <;> simp

/-- C5 (amended): `detectFormat` computes exactly the spec's aggregate
rule, with per-item classification amended to give the legacy test
priority: an item with `id`+`attributes` and also `documentId` counts as
legacy-like only.  Totality of the classification is witnessed by
`detectFormat` being a total function into the four-valued result type. -/
theorem detectFormat_matches_amended_rule (data : Json) :
    detectFormat data = specDetectAmended data := by
  unfold detectFormat specDetectAmended
  by_cases h : data.truthy = true
  · simp only [h, Bool.not_true, Bool.false_eq_true, if_false]
    rw [detectCounts_fold]
    simp only [toItems, Nat.zero_add, length_beq_zero_eq_isEmpty]
  · simp only [Bool.not_eq_true] at h
    simp [h]

/-- C5 (counterexample to the claim as stated): an item carrying `id`,
`attributes` and `documentId` is both legacy-like and modern-like, so the
claim's aggregate rule answers `mixed`, but `detectFormat` classifies it
with the legacy test first and answers `v4`. -/
theorem detectFormat_claim_rule_counterexample :
    specDetectClaim
        (Json.obj [("id", .prim (.num 1)), ("attributes", .obj []),
          ("documentId", .prim (.str "d"))]) = .mixed
      ∧ detectFormat
        (Json.obj [("id", .prim (.num 1)), ("attributes", .obj []),
          ("documentId", .prim (.str "d"))]) = .v4 := by
  constructor <;> rfl

/-!
### C4 — fast vs detailed validation
-/

theorem enumFromErrs_implies_validItemList (fmt : StrapiFormat)
    (o : ValidationOptions) (msg : Nat → String) :
    ∀ (xs : List Json) (n : Nat),
    (List.enumFrom n xs).filterMap (fun p =>
      if !validateItem p.2 fmt o then some (msg p.1) else none) = [] →
    validItemList xs fmt o = true := by
  intro xs
  induction xs with
  | nil => intro n _; simp [validItemList]
  | cons x rest ih =>
    intro n h
    simp only [List.enumFrom, List.filterMap_cons] at h
    by_cases hv : validateItem x fmt o = true
    · rw [hv] at h
      simp only [Bool.not_true, Bool.false_eq_true, if_false] at h
      unfold validItemList
      rw [hv]
      simpa using ih (n + 1) h
    · simp only [Bool.not_eq_true] at hv
      rw [hv] at h
      simp at h
  -- a failing inner item would leave its message in the error list

theorem detRel_implies_fastRel (relation : Json) (o : ValidationOptions)
    (idx : Nat) (k : String) :
    (validateRelationWithDetails relation .v5 o idx k).isValid = true →
    validateRelation relation .v5 o = true := by
  intro h
  unfold validateRelationWithDetails at h
  unfold validateRelation
  by_cases ht : relation.truthy = true
  · simp only [ht, Bool.not_true, Bool.false_eq_true, if_false] at h ⊢
    cases relation with
    | arr xs =>
      simp only [List.isEmpty_iff] at h
      have := enumFromErrs_implies_validItemList .v5 o
        (fun relIndex =>
          s!"Item {idx}, field '{k}', relation {relIndex}: Invalid v5 format")
        xs 0 h
      simpa using this
    | prim p =>
      by_cases hd : (Json.getField (Json.prim p) "documentId").truthy = true
      · simp only [hd, if_true] at h ⊢
        by_cases hv : validateItem (Json.prim p) .v5 o = true
        · simpa using hv
        · simp only [Bool.not_eq_true] at hv
          rw [hv] at h
          simp at h
      · simp only [Bool.not_eq_true] at hd
        simp [hd]
    | obj fs =>
      by_cases hd : (Json.getField (Json.obj fs) "documentId").truthy = true
      · simp only [hd, if_true] at h ⊢
        by_cases hv : validateItem (Json.obj fs) .v5 o = true
        · simpa using hv
        · simp only [Bool.not_eq_true] at hv
          rw [hv] at h
          simp at h
      · simp only [Bool.not_eq_true] at hd
        simp [hd]
  · simp only [Bool.not_eq_true] at ht
    simp [ht]

theorem relScanFold_isValid (fs : List (String × Json)) (fmt : StrapiFormat)
    (o : ValidationOptions) (idx : Nat) (acc : ItemCheck) :
    (fs.foldl (fun acc kv =>
      if kv.2.truthy && kv.2.isObjectType && isRelationField kv.2 fmt then
        let r := validateRelationWithDetails kv.2 fmt o idx kv.1
        (⟨acc.isValid && r.isValid, acc.errors ++ r.errors,
          acc.warnings ++ r.warnings⟩ : ItemCheck)
      else acc) acc).isValid =
    (acc.isValid && fs.all fun kv =>
      if kv.2.truthy && kv.2.isObjectType && isRelationField kv.2 fmt then
        (validateRelationWithDetails kv.2 fmt o idx kv.1).isValid
      else true) := by
  induction fs generalizing acc with
  | nil => simp
  | cons kv rest ih =>
    simp only [List.foldl_cons, List.all_cons]
    by_cases hc : (kv.2.truthy && kv.2.isObjectType && isRelationField kv.2 fmt) = true
    · rw [if_pos hc, if_pos hc, ih]
      simp [Bool.and_assoc]
    · rw [if_neg hc, if_neg hc, ih]
      simp

theorem fieldScan_implies_validRelVals (fs : List (String × Json))
    (o : ValidationOptions) (idx : Nat) :
    (fs.all fun kv =>
      if kv.2.truthy && kv.2.isObjectType && isRelationField kv.2 .v5 then
        (validateRelationWithDetails kv.2 .v5 o idx kv.1).isValid
      else true) = true →
    validRelVals (fs.map Prod.snd) .v5 o = true := by
  induction fs with
  | nil => intro _; simp [validRelVals]
  | cons kv rest ih =>
    intro h
    rw [List.all_cons, Bool.and_eq_true] at h
    obtain ⟨h1, h2⟩ := h
    simp only [List.map_cons]
    unfold validRelVals
    rw [ih h2, Bool.and_true]
    by_cases hc : (kv.2.truthy && kv.2.isObjectType && isRelationField kv.2 .v5) = true
    · rw [if_pos hc]
      rw [if_pos hc] at h1
      exact detRel_implies_fastRel kv.2 o idx kv.1 h1
    · rw [if_neg hc]

/-- The entry values the fast relation scan visits are exactly the values
of the entries the detailed scan visits. -/
theorem entryVals_eq_jsEntries_map (item : Json) :
    item.entryVals = (jsEntries item).map Prod.snd := by
  cases item with
  | obj fs => rfl
  | arr xs =>
    simp only [Json.entryVals, jsEntries, List.map_map]
    have hc : (Prod.snd ∘ fun p : Nat × Json => (toString p.1, p.2)) = Prod.snd := by
      funext q
      rfl
    rw [hc, List.enum_map_snd]
  | prim p => rfl

theorem detRelScan_implies_fastScan (item : Json) (o : ValidationOptions)
    (idx : Nat) :
    (validateRelationsWithDetails item .v5 o idx).isValid = true →
    validateRelations item .v5 o = true := by
  intro h
  unfold validateRelationsWithDetails at h
  unfold validateRelations
  by_cases hg : (!item.truthy || !item.isObjectType) = true
  · simp [hg]
  · rw [if_neg (by simpa using hg)] at h ⊢
    rw [relScanFold_isValid] at h
    simp only [Bool.true_and] at h
    rw [entryVals_eq_jsEntries_map]
    exact fieldScan_implies_validRelVals (jsEntries item) o idx h

theorem detItem_implies_fastItem (item : Json) (o : ValidationOptions)
    (idx : Nat) :
    (validateItemWithDetails item .v5 o idx).isValid = true →
    validateItem item .v5 o = true := by
  intro h
  unfold validateItemWithDetails at h
  by_cases hg : (!item.truthy || !item.isObjectType) = true
  · rw [if_pos hg] at h
    simp at h
  · rw [if_neg hg] at h
    unfold validateItem
    rw [if_neg hg]
    have hdoc : (item.getField "documentId").truthy = true := by
      by_cases hd : (item.getField "documentId").truthy = true
      · exact hd
      · exfalso
        simp only [Bool.not_eq_true] at hd
        by_cases hcr : o.checkRelations = true <;>
          simp [hd, hcr] at h
    unfold validateV5Item
    simp only [hdoc, if_true]
    by_cases hcr : o.checkRelations = true
    · simp only [hcr, if_true]
      apply detRelScan_implies_fastScan item o idx
      by_cases hrel : (validateRelationsWithDetails item .v5 o idx).isValid = true
      · exact hrel
      · exfalso
        simp only [Bool.not_eq_true] at hrel
        simp [hdoc, hcr, hrel] at h
    · simp [hcr]

theorem reportFold_invalidItems (items : List (Nat × Json))
    (fmt : StrapiFormat) (o : ValidationOptions) (rep : ValidationReport) :
    (items.foldl (fun (rep : ValidationReport) (p : Nat × Json) =>
      let c := validateItemWithDetails p.2 fmt o p.1
      if c.isValid then
        { rep with validItems := rep.validItems + 1,
                   warnings := rep.warnings ++ c.warnings }
      else
        { rep with invalidItems := rep.invalidItems + 1,
                   errors := rep.errors ++ c.errors,
                   warnings := rep.warnings ++ c.warnings }) rep).invalidItems
    = rep.invalidItems + items.countP
        (fun p => !(validateItemWithDetails p.2 fmt o p.1).isValid) := by
  induction items generalizing rep with
  | nil => simp
  | cons p rest ih =>
    simp only [List.foldl_cons, List.countP_cons]
    by_cases hv : (validateItemWithDetails p.2 fmt o p.1).isValid = true
    · simp only [hv, if_true, ih, Bool.not_true]
      simp
    · simp only [Bool.not_eq_true] at hv
      simp only [hv, Bool.false_eq_true, if_false, ih, Bool.not_false]
      simp
      omega

theorem enumFromCountP_zero_implies_all (o : ValidationOptions) :
    ∀ (xs : List Json) (n : Nat),
    (List.enumFrom n xs).countP
      (fun p => !(validateItemWithDetails p.2 .v5 o p.1).isValid) = 0 →
    (xs.all fun item => validateItem item .v5 o) = true := by
  intro xs
  induction xs with
  | nil => intro n _; simp
  | cons x rest ih =>
    intro n h
    simp only [List.enumFrom, List.countP_cons] at h
    by_cases hv : (validateItemWithDetails x .v5 o n).isValid = true
    · simp only [List.all_cons, Bool.and_eq_true]
      refine ⟨detItem_implies_fastItem x o n hv, ?_⟩
      apply ih (n + 1)
      simp only [hv, Bool.not_true] at h
      simpa using h
    · simp only [Bool.not_eq_true] at hv
      rw [hv] at h
      simp at h

/-- C4 (amended, v5 direction): whenever the detailed report finds v5 data
valid, the fast path agrees; the fast path is strictly more permissive
(see the counterexample), so only this implication holds. -/
theorem report_isValid_implies_validateFormat_v5 (data : Json)
    (o : ValidationOptions) :
    (getValidationReport data .v5 o).isValid = true →
    validateFormat data .v5 o = true := by
  intro h
  unfold getValidationReport at h
  unfold validateFormat
  by_cases ht : data.truthy = true
  · simp only [ht, Bool.not_true, Bool.false_eq_true, if_false] at h ⊢
    rw [reportFold_invalidItems] at h
    simp only [emptyReport, Nat.zero_add, beq_iff_eq] at h
    cases data with
    | arr xs =>
      have hcount : (List.enumFrom 0 xs).countP
          (fun p => !(validateItemWithDetails p.2 .v5 o p.1).isValid) = 0 := by
        simpa [List.enum] using h
      exact enumFromCountP_zero_implies_all o xs 0 hcount
    | prim p =>
      have hcount : (List.enumFrom 0 [Json.prim p]).countP
          (fun q => !(validateItemWithDetails q.2 .v5 o q.1).isValid) = 0 := by
        simpa [List.enum] using h
      have := enumFromCountP_zero_implies_all o [Json.prim p] 0 hcount
      simpa using this
    | obj fs =>
      have hcount : (List.enumFrom 0 [Json.obj fs]).countP
          (fun q => !(validateItemWithDetails q.2 .v5 o q.1).isValid) = 0 := by
        simpa [List.enum] using h
      have := enumFromCountP_zero_implies_all o [Json.obj fs] 0 hcount
      simpa using this
  · simp only [Bool.not_eq_true] at ht
    simp [ht]

/-- C4 (counterexample): on the empty object expected as v5 with default
options, the fast path accepts (permissive unknown-shape fallback) while
the detailed report rejects, so the two paths are not equivalent. -/
theorem validateFormat_report_disagree :
    validateFormat (Json.obj []) .v5 defaultValidationOptions = true
      ∧ (getValidationReport (Json.obj []) .v5
          defaultValidationOptions).isValid = false := by
  constructor
  · simp [validateFormat, validateItem, validateV5Item, Json.truthy,
      Json.isObjectType, Json.getField, Json.lookupField, Json.primTruthy,
      defaultValidationOptions]
  · rfl

/-- C4 (witness): the implication is not vacuous — a well-formed v5 item
has a valid report, and the theorem transports that to the fast path. -/
theorem report_isValid_implies_validateFormat_v5_witness :
    (getValidationReport (Json.obj [("documentId", .prim (.str "d"))]) .v5
        defaultValidationOptions).isValid = true
      ∧ validateFormat (Json.obj [("documentId", .prim (.str "d"))]) .v5
          defaultValidationOptions = true :=
  ⟨rfl, report_isValid_implies_validateFormat_v5
    (Json.obj [("documentId", .prim (.str "d"))]) defaultValidationOptions rfl⟩

/-!
### Generic lemmas about the heap/state helpers
-/

theorem mapV4ToV5_heap (v : Val) (ct : String) (s : TState) :
    (mapV4ToV5 v ct s).2.heap = s.heap := by
  unfold mapV4ToV5
  dsimp only
  cases h : lookupAssoc s.mappings (ct ++ ":" ++ jsKeyString s.heap v) <;>
    simp [h]

theorem mapV4ToV5_nextAddr (v : Val) (ct : String) (s : TState) :
    (mapV4ToV5 v ct s).2.nextAddr = s.nextAddr := by
  unfold mapV4ToV5
  dsimp only
  cases h : lookupAssoc s.mappings (ct ++ ":" ++ jsKeyString s.heap v) <;>
    simp [h]

theorem mapV4ToV5_visiting (v : Val) (ct : String) (s : TState) :
    (mapV4ToV5 v ct s).2.visiting = s.visiting := by
  unfold mapV4ToV5
  dsimp only
  cases h : lookupAssoc s.mappings (ct ++ ":" ++ jsKeyString s.heap v) <;>
    simp [h]

/-!
### C1 — self-referential relation graphs

The spec asserts transform terminates on them with a `{circularRef: true}`
sentinel.  The code's relation path
(`transformNestedData → transformRelationData → transformV4ItemToV5`)
never re-enters `transform`, so neither the circular-reference cache nor
the depth guard is consulted: on a self-referential relation the recursion
never completes (a stack overflow in JavaScript).  Formally: the fueled
interpreter returns `none` for every fuel.

`cycHeap`: address 0 is `a = {id: 1, attributes: {rel: {data: a}}}`. -/

def cycHeap : List (Nat × HObj) :=
  [(0, .obj [("id", .prim (.num 1)), ("attributes", .ref 1)]),
   (1, .obj [("rel", .ref 2)]),
   (2, .obj [("data", .ref 0)])]

def cycState : TState := ⟨cycHeap, 3, [], [], [], 0⟩

theorem selfRelationItem_diverges (fuel : Nat) :
    ∀ (s : TState), s.heap = cycHeap →
    ∀ (opts : TransformationOptions), opts.preserveOriginalId = true →
    transformV4ItemToV5 fuel (.ref 0) opts s = none := by
  induction fuel using Nat.strong_induction_on with
  | _ fuel ih =>
    intro s hs opts hpres
    match fuel with
    | 0 => rfl
    | f + 1 =>
      have hid : getFieldV s.heap (.ref 0) "id" = .prim (.num 1) := by
        rw [hs]; rfl
      have hattrs : getFieldV s.heap (.ref 0) "attributes" = .ref 1 := by
        rw [hs]; rfl
      rw [transformV4ItemToV5]
      simp only [hid, hattrs]
      rw [if_neg (by decide)]
      rw [if_pos (by decide)]
      have hph : (mapV4ToV5 (Val.prim (.num 1)) opts.contentType s).2.heap
          = cycHeap := by rw [mapV4ToV5_heap, hs]
      have hspread : spreadFields
          (mapV4ToV5 (Val.prim (.num 1)) opts.contentType s).2.heap
          (Val.ref 1) = [("rel", .ref 2)] := by
        rw [hph]; rfl
      rw [hspread]
      simp only [hpres]
      have hfields : setFieldV
          (spreadOnto
            [("documentId",
              .prim (.str (mapV4ToV5 (Val.prim (.num 1)) opts.contentType s).1))]
            [("rel", .ref 2)]) "id" (.prim (.num 1)) =
          [("documentId",
            .prim (.str (mapV4ToV5 (Val.prim (.num 1)) opts.contentType s).1)),
           ("rel", .ref 2), ("id", .prim (.num 1))] := by
        rfl
      simp only [if_true]
      rw [hfields]
      match f with
      | 0 => rfl
      | g + 1 =>
        rw [transformFieldsNested]
        rw [if_neg (by simp [vIsObjectType])]
        match g with
        | 0 => rfl
        | h + 1 =>
          rw [transformFieldsNested]
          rw [if_pos (by decide)]
          match h with
          | 0 => rfl
          | i + 1 =>
            rw [transformNestedData]
            rw [if_neg (by decide)]
            rw [if_pos (by rw [hph]; decide)]
            match i with
            | 0 => rfl
            | j + 1 =>
              rw [transformRelationData]
              rw [if_neg (by decide), if_pos (by decide)]
              have hd : getFieldV
                  (mapV4ToV5 (Val.prim (.num 1)) opts.contentType s).2.heap
                  (Val.ref 2) "data" = .ref 0 := by
                rw [hph]; rfl
              rw [hd]
              rw [if_pos (by decide)]
              have harr : getArr
                  (mapV4ToV5 (Val.prim (.num 1)) opts.contentType s).2.heap
                  (Val.ref 0) = none := by
                rw [hph]; rfl
              rw [harr]
              rw [ih j (by omega)
                (mapV4ToV5 (Val.prim (.num 1)) opts.contentType s).2 hph
                _ (by simpa using hpres)]

/-- `cycState` with the top object already in the visiting cache, as the
state reads inside the dispatch. -/
def cycVisState : TState := ⟨cycHeap, 3, [0], [], [], 0⟩

/-- C1 (code evaluated at the failing input): on the self-referential
relation graph `a = {id: 1, attributes: {rel: {data: a}}}`, the
v4-to-v5 transform never completes, whatever the fuel — the claimed
circular-reference sentinel is never produced on the relation path. -/
theorem transform_selfRelation_diverges (fuel : Nat) :
    transform fuel (.ref 0) .v4 .v5 defaultTransformOptions cycState = none := by
  match fuel with
  | 0 => rfl
  | f + 1 =>
    have h1 : transform (f + 1) (.ref 0) .v4 .v5 defaultTransformOptions
        cycState =
        (match transformCore f (.ref 0) .v4 .v5 defaultTransformOptions
            cycVisState with
         | none => none
         | some (v, s2) => some (v, { s2 with visiting := s2.visiting.erase 0 })) :=
      rfl
    have hcore : transformCore f (.ref 0) .v4 .v5 defaultTransformOptions
        cycVisState = none := by
      match f with
      | 0 => rfl
      | g + 1 =>
        have h2 : transformCore (g + 1) (.ref 0) .v4 .v5
            defaultTransformOptions cycVisState =
            transformV4ToV5 g (.ref 0) defaultTransformOptions cycVisState :=
          rfl
        have hv : transformV4ToV5 g (.ref 0) defaultTransformOptions
            cycVisState = none := by
          match g with
          | 0 => rfl
          | h + 1 =>
            have h3 : transformV4ToV5 (h + 1) (.ref 0) defaultTransformOptions
                cycVisState =
                transformV4ItemToV5 h (.ref 0) defaultTransformOptions
                  cycVisState := rfl
            rw [h3]
            exact selfRelationItem_diverges h cycVisState rfl
              defaultTransformOptions rfl
        rw [h2, hv]
    rw [h1, hcore]

/-!
### C3 — the depth guard and the relation path

The guard itself works where it is consulted: entering `transform` with
`depth > 10` returns the data untouched (`transform_depth_guard`).  But
the relation path of `transformNestedData` never re-enters `transform`,
so nested relations are converted at any depth — a 20-level relation
chain is fully converted instead of degrading at depth 10
(`relationPath_ignores_depth_guard` shows conversion at depth 15).
-/

/-- The part of the depth claim the code honors: `transform` itself stops
at `depth > MAX_DEPTH` and returns the data as-is. -/
theorem transform_depth_guard (fuel : Nat) (data : Val)
    (src tgt : StrapiFormat) (opts : TransformationOptions) (s : TState)
    (hne : (src == tgt) = false) (hd : opts.depth > MAX_DEPTH) :
    transform (fuel + 1) data src tgt opts s = some (data, s) := by
  rw [transform]
  rw [if_neg (by simp [hne])]
  dsimp only
  rw [if_pos hd]

def deepState : TState :=
  ⟨[(0, .obj [("data", .ref 1)]),
    (1, .obj [("id", .prim (.num 1)), ("attributes", .ref 2)]),
    (2, .obj [("note", .prim (.str "n"))])], 3, [], [], [], 0⟩

/-- Default options but already 15 levels deep — beyond `MAX_DEPTH`. -/
def deepOpts : TransformationOptions := ⟨"unknown", true, false, 15⟩

/-- Whether the nested-data conversion of `{data: {id: 1, attributes:
{note: "n"}}}` at depth 15 produces a converted (documentId-carrying)
item instead of returning the data as-is. -/
def depthBypassProbe : Bool :=
  match transformNestedData 10 (.ref 0) .v4 .v5 deepOpts deepState with
  | some (v, s1) => getFieldV s1.heap v "documentId" != Val.prim .undef
  | none => false

/-- C3 (code evaluated at a beyond-limit depth): with the recursion depth
already at 15 — beyond the fixed maximum of 10 — the relation path still
converts the wrapped item (the result carries `documentId`) instead of
stopping and returning the remaining data as-is; so a 20-level relation
chain converts at every level rather than degrading at depth 10. -/
theorem relationPath_ignores_depth_guard : depthBypassProbe = true := by
  decide

/-!
### C2 — round trip for relation-free items
-/

theorem setFieldV_append_of_not_mem (fs : List (String × Val)) (k : String)
    (v : Val) (h : ∀ e ∈ fs, e.1 ≠ k) :
    setFieldV fs k v = fs ++ [(k, v)] := by
  induction fs with
  | nil => rfl
  | cons e rest ih =>
    obtain ⟨k1, v1⟩ := e
    have hk1 : k1 ≠ k := h (k1, v1) (by simp)
    simp only [setFieldV, if_neg hk1, List.cons_append, List.cons.injEq,
      true_and]
    exact ih fun e he => h e (by simp [he])

theorem spreadOnto_append (src : List (String × Val)) :
    ∀ (base : List (String × Val)),
    (∀ e ∈ src, ∀ e2 ∈ base, e.1 ≠ e2.1) →
    (src.map Prod.fst).Nodup →
    spreadOnto base src = base ++ src := by
  induction src with
  | nil => intro base _ _; simp [spreadOnto]
  | cons e rest ih =>
    intro base hdisj hnodup
    obtain ⟨k, v⟩ := e
    have hbase : ∀ e2 ∈ base, e2.1 ≠ k := fun e2 he2 =>
      (hdisj (k, v) (by simp) e2 he2).symm
    have hstep : spreadOnto base ((k, v) :: rest) =
        spreadOnto (base ++ [(k, v)]) rest := by
      simp only [spreadOnto, List.foldl_cons]
      rw [setFieldV_append_of_not_mem base k v hbase]
    have hd2 : ∀ e1 ∈ rest, ∀ e2 ∈ base ++ [(k, v)], e1.1 ≠ e2.1 := by
      intro e1 he1 e2 he2
      rcases List.mem_append.mp he2 with h2 | h2
      · exact hdisj e1 (by simp [he1]) e2 h2
      · have he2k : e2 = (k, v) := by simpa using h2
        subst he2k
        simp only [List.map_cons, List.nodup_cons, List.mem_map] at hnodup
        intro hkeq
        exact hnodup.1 ⟨e1, he1, hkeq⟩
    have hn2 : (rest.map Prod.fst).Nodup := by
      simp only [List.map_cons, List.nodup_cons] at hnodup
      exact hnodup.2
    rw [hstep, ih (base ++ [(k, v)]) hd2 hn2, List.append_assoc]
    rfl

theorem lookupFieldV_append_right (fs rest : List (String × Val))
    (k : String) (h : ∀ e ∈ fs, e.1 ≠ k) :
    lookupFieldV (fs ++ rest) k = lookupFieldV rest k := by
  induction fs with
  | nil => rfl
  | cons e tail ih =>
    obtain ⟨k1, v1⟩ := e
    have hk1 : k1 ≠ k := h (k1, v1) (by simp)
    simp only [List.cons_append, lookupFieldV, if_neg hk1]
    exact ih fun e he => h e (by simp [he])

theorem removeFieldV_eq_self (fs : List (String × Val)) (k : String)
    (h : ∀ e ∈ fs, e.1 ≠ k) : removeFieldV fs k = fs := by
  unfold removeFieldV
  exact List.filter_eq_self.mpr fun e he => by
    simpa using h e he

theorem transformFieldsNested_prims (src tgt : StrapiFormat)
    (opts : TransformationOptions) :
    ∀ (fs : List (String × Val)) (fuel : Nat) (s : TState),
    (∀ kv ∈ fs, ∃ p, kv.2 = Val.prim p) → fuel ≥ fs.length →
    transformFieldsNested fuel fs src tgt opts s = some (fs, s) := by
  intro fs
  induction fs with
  | nil => intro fuel s _ _; cases fuel <;> rfl
  | cons kv rest ih =>
    intro fuel s hprims hfuel
    obtain ⟨f, rfl⟩ : ∃ f, fuel = f + 1 :=
      ⟨fuel - 1, by simp at hfuel; omega⟩
    obtain ⟨p, hp⟩ := hprims kv (by simp)
    obtain ⟨k, v⟩ := kv
    simp only at hp
    subst hp
    rw [transformFieldsNested]
    rw [if_neg (by cases p <;> simp [vTruthy, vIsObjectType, Json.primTruthy])]
    rw [ih f s (fun kv hkv => hprims kv (by simp [hkv])) (by simp at hfuel; omega)]

theorem lookupAssoc_mem {α : Type} (ms : List (String × α)) (k : String)
    (m : α) (h : lookupAssoc ms k = some m) : (k, m) ∈ ms := by
  induction ms with
  | nil => simp [lookupAssoc] at h
  | cons e rest ih =>
    obtain ⟨k1, m1⟩ := e
    simp only [lookupAssoc] at h
    by_cases hk : k1 = k
    · subst hk
      rw [if_pos rfl] at h
      simp only [Option.some.injEq] at h
      subst h
      simp
    · rw [if_neg hk] at h
      simpa using Or.inr (ih h)

theorem generateDocumentId_ne_empty (v : Val) (ct : String)
    (h : List (Nat × HObj)) (clk : Nat) :
    generateDocumentId v ct h clk ≠ "" := by
  intro hemp
  have hlen := congrArg String.length hemp
  simp only [generateDocumentId, String.length_append] at hlen
  have h1 : "_".length = 1 := rfl
  have h2 : "r".length = 1 := rfl
  have h3 : "".length = 0 := rfl
  omega

theorem mapV4ToV5_ne_empty (v : Val) (ct : String) (s : TState)
    (hsane : ∀ e ∈ s.mappings, e.2.v5DocumentId ≠ "") :
    (mapV4ToV5 v ct s).1 ≠ "" := by
  unfold mapV4ToV5
  dsimp only
  cases hl : lookupAssoc s.mappings (ct ++ ":" ++ jsKeyString s.heap v) with
  | none =>
    simp only
    exact generateDocumentId_ne_empty v ct s.heap s.clock
  | some m =>
    simp only
    exact hsane _ (lookupAssoc_mem _ _ _ hl)

/-- The state after the forward (v4 to v5) transform of the round-trip
item: the converted object is allocated at `s0.nextAddr`, the id mapper
may have recorded a new mapping, the visiting cache is empty again. -/
def fwdState (s0 : TState) (a : Nat) (pi : JsPrim)
    (attrs : List (String × Val)) : TState :=
  let m := mapV4ToV5 (.prim pi) "unknown" { s0 with visiting := [a] }
  { heap := (s0.nextAddr,
      .obj (("documentId", .prim (.str m.1)) :: (attrs ++ [("id", .prim pi)])))
      :: s0.heap,
    nextAddr := s0.nextAddr + 1,
    visiting := [],
    mappings := m.2.mappings,
    revMappings := m.2.revMappings,
    clock := m.2.clock }

/-- The state after the backward (v5 to v4) transform: the rebuilt
`attributes` object sits at `s0.nextAddr + 1` and the rebuilt item at
`s0.nextAddr + 2`. -/
def bwdState (s0 : TState) (a : Nat) (pi : JsPrim)
    (attrs : List (String × Val)) : TState :=
  let F := fwdState s0 a pi attrs
  { heap := (s0.nextAddr + 2,
      .obj [("id", .prim pi), ("attributes", .ref (s0.nextAddr + 1))])
      :: (s0.nextAddr + 1, .obj attrs) :: F.heap,
    nextAddr := s0.nextAddr + 3,
    visiting := [],
    mappings := F.mappings,
    revMappings := F.revMappings,
    clock := F.clock }

theorem roundTrip_fwd (s0 : TState) (a b : Nat) (pi : JsPrim)
    (attrs : List (String × Val))
    (hheapA : hGet s0.heap a =
      some (.obj [("id", .prim pi), ("attributes", .ref b)]))
    (hheapB : hGet s0.heap b = some (.obj attrs))
    (hid : Json.primTruthy pi = true)
    (hprims : ∀ kv ∈ attrs, ∃ q, kv.2 = Val.prim q)
    (hkeys1 : ∀ kv ∈ attrs, kv.1 ≠ "id")
    (hkeys2 : ∀ kv ∈ attrs, kv.1 ≠ "documentId")
    (hnodup : (attrs.map Prod.fst).Nodup)
    (hvisit : s0.visiting = [])
    (f : Nat) (hf : f ≥ attrs.length + 2) :
    transform (f + 4) (.ref a) .v4 .v5 defaultTransformOptions s0 =
      some (.ref s0.nextAddr, fwdState s0 a pi attrs) := by
  have hheapA1 : hGet ({ s0 with visiting := [a] } : TState).heap a =
      some (.obj [("id", .prim pi), ("attributes", .ref b)]) := hheapA
  have hheapB1 : hGet ({ s0 with visiting := [a] } : TState).heap b =
      some (.obj attrs) := hheapB
  have hidv : getFieldV ({ s0 with visiting := [a] } : TState).heap
      (.ref a) "id" = .prim pi := by
    simp [getFieldV, hheapA1, lookupFieldV]
  have hattrv : getFieldV ({ s0 with visiting := [a] } : TState).heap
      (.ref a) "attributes" = .ref b := by
    simp [getFieldV, hheapA1, lookupFieldV]
  have hsp : spreadFields
      (mapV4ToV5 (.prim pi) "unknown" { s0 with visiting := [a] }).2.heap
      (.ref b) = attrs := by
    rw [mapV4ToV5_heap]
    simp [spreadFields, hheapB1]
  have h1 : transformV4ItemToV5 (f + 1) (.ref a) defaultTransformOptions
      { s0 with visiting := [a] } =
      some (.ref s0.nextAddr,
        { heap := (s0.nextAddr, .obj (("documentId",
            .prim (.str (mapV4ToV5 (.prim pi) "unknown"
              { s0 with visiting := [a] }).1))
            :: (attrs ++ [("id", .prim pi)]))) :: s0.heap,
          nextAddr := s0.nextAddr + 1,
          visiting := [a],
          mappings := (mapV4ToV5 (.prim pi) "unknown"
            { s0 with visiting := [a] }).2.mappings,
          revMappings := (mapV4ToV5 (.prim pi) "unknown"
            { s0 with visiting := [a] }).2.revMappings,
          clock := (mapV4ToV5 (.prim pi) "unknown"
            { s0 with visiting := [a] }).2.clock }) := by
    rw [transformV4ItemToV5]
    rw [if_neg (by simp [vTruthy, vIsObjectType])]
    dsimp only
    rw [hidv, hattrv]
    rw [if_pos (by simp [vTruthy, hid])]
    have hct : defaultTransformOptions.contentType = "unknown" := rfl
    rw [hct]
    rw [show mapV4ToV5 (.prim pi) "unknown" { s0 with visiting := [a] } =
      ((mapV4ToV5 (.prim pi) "unknown" { s0 with visiting := [a] }).1,
       (mapV4ToV5 (.prim pi) "unknown" { s0 with visiting := [a] }).2)
      from rfl]
    dsimp only
    rw [hsp]
    rw [spreadOnto_append attrs _ ?hdisj hnodup]
    case hdisj =>
      intro e he e2 he2
      have he2e : e2 = ("documentId",
          Val.prim (.str (mapV4ToV5 (.prim pi) "unknown"
            { s0 with visiting := [a] }).1)) := by simpa using he2
      rw [he2e]
      exact hkeys2 e he
    rw [show defaultTransformOptions.preserveOriginalId = true from rfl]
    rw [if_pos rfl]
    rw [setFieldV_append_of_not_mem _ "id" _ ?hnotid]
    case hnotid =>
      intro e he
      rcases List.mem_append.mp he with h2 | h2
      · have : e = ("documentId",
            Val.prim (.str (mapV4ToV5 (.prim pi) "unknown"
              { s0 with visiting := [a] }).1)) := by simpa using h2
        rw [this]
        simp
      · exact hkeys1 e h2
    rw [transformFieldsNested_prims .v4 .v5 _ _ f _ ?hallprims ?hlen]
    case hallprims =>
      intro kv hkv
      rcases List.mem_append.mp hkv with h2 | h2
      · rcases List.mem_append.mp h2 with h3 | h3
        · have : kv = ("documentId",
              Val.prim (.str (mapV4ToV5 (.prim pi) "unknown"
                { s0 with visiting := [a] }).1)) := by simpa using h3
          exact ⟨_, by rw [this]⟩
        · exact hprims kv h3
      · have : kv = ("id", Val.prim pi) := by simpa using h2
        exact ⟨_, by rw [this]⟩
    case hlen =>
      simp only [List.length_append, List.length_cons, List.length_nil,
        List.length_singleton]
      omega
    dsimp only [allocObj]
    rw [mapV4ToV5_nextAddr, mapV4ToV5_heap, mapV4ToV5_visiting]
    rfl
  have hv45 : transformV4ToV5 (f + 2) (.ref a) defaultTransformOptions
      { s0 with visiting := [a] } =
      transformV4ItemToV5 (f + 1) (.ref a) defaultTransformOptions
        { s0 with visiting := [a] } := by
    rw [transformV4ToV5]
    rw [if_neg (by simp [vTruthy])]
    have hga : getArr ({ s0 with visiting := [a] } : TState).heap
        (.ref a) = none := by
      simp [getArr, hheapA1]
    rw [hga]
  have hcore : transformCore (f + 3) (.ref a) .v4 .v5
      defaultTransformOptions { s0 with visiting := [a] } =
      transformV4ToV5 (f + 2) (.ref a) defaultTransformOptions
        { s0 with visiting := [a] } := rfl
  rw [transform]
  rw [if_neg (by decide)]
  dsimp only
  rw [show ({ defaultTransformOptions with
      contentType := if defaultTransformOptions.contentType = ""
        then "unknown" else defaultTransformOptions.contentType } :
      TransformationOptions) = defaultTransformOptions from rfl]
  rw [if_neg (by decide)]
  rw [hvisit]
  rw [if_neg (by simp)]
  rw [hcore, hv45, h1]
  dsimp only
  rw [List.erase_cons_head]
  rfl

theorem roundTrip_bwd (s0 : TState) (a b : Nat) (pi : JsPrim)
    (attrs : List (String × Val))
    (hheapA : hGet s0.heap a =
      some (.obj [("id", .prim pi), ("attributes", .ref b)]))
    (hheapB : hGet s0.heap b = some (.obj attrs))
    (hid : Json.primTruthy pi = true)
    (hprims : ∀ kv ∈ attrs, ∃ q, kv.2 = Val.prim q)
    (hkeys1 : ∀ kv ∈ attrs, kv.1 ≠ "id")
    (hkeys2 : ∀ kv ∈ attrs, kv.1 ≠ "documentId")
    (hnodup : (attrs.map Prod.fst).Nodup)
    (hvisit : s0.visiting = [])
    (hsane : ∀ e ∈ s0.mappings, e.2.v5DocumentId ≠ "")
    (g : Nat) (hg : g ≥ attrs.length + 2) :
    transform (g + 4) (.ref s0.nextAddr) .v5 .v4 defaultTransformOptions
      (fwdState s0 a pi attrs) =
      some (.ref (s0.nextAddr + 2), bwdState s0 a pi attrs) := by
  have hD : (mapV4ToV5 (.prim pi) "unknown" { s0 with visiting := [a] }).1
      ≠ "" := mapV4ToV5_ne_empty _ _ _ hsane
  dsimp only [bwdState, fwdState]
  generalize hm : mapV4ToV5 (.prim pi) "unknown" { s0 with visiting := [a] }
    = m
  rw [hm] at hD
  have hhead : ∀ (vis : List Nat), hGet
      ({ heap := (s0.nextAddr, HObj.obj (("documentId", .prim (.str m.1))
          :: (attrs ++ [("id", .prim pi)]))) :: s0.heap,
         nextAddr := s0.nextAddr + 1, visiting := vis,
         mappings := m.2.mappings, revMappings := m.2.revMappings,
         clock := m.2.clock } : TState).heap s0.nextAddr =
      some (.obj (("documentId", .prim (.str m.1))
        :: (attrs ++ [("id", .prim pi)]))) := by
    intro vis
    simp [hGet]
  have hdoc : ∀ (vis : List Nat), getFieldV
      ({ heap := (s0.nextAddr, HObj.obj (("documentId", .prim (.str m.1))
          :: (attrs ++ [("id", .prim pi)]))) :: s0.heap,
         nextAddr := s0.nextAddr + 1, visiting := vis,
         mappings := m.2.mappings, revMappings := m.2.revMappings,
         clock := m.2.clock } : TState).heap (.ref s0.nextAddr)
        "documentId" = .prim (.str m.1) := by
    intro vis
    simp [getFieldV, hGet, lookupFieldV]
  have hidb : ∀ (vis : List Nat), getFieldV
      ({ heap := (s0.nextAddr, HObj.obj (("documentId", .prim (.str m.1))
          :: (attrs ++ [("id", .prim pi)]))) :: s0.heap,
         nextAddr := s0.nextAddr + 1, visiting := vis,
         mappings := m.2.mappings, revMappings := m.2.revMappings,
         clock := m.2.clock } : TState).heap (.ref s0.nextAddr) "id" =
      .prim pi := by
    intro vis
    have h1 := lookupFieldV_append_right attrs [("id", Val.prim pi)] "id" hkeys1
    simp [getFieldV, hGet, lookupFieldV, h1]
  have hspb : ∀ (vis : List Nat), spreadFields
      ({ heap := (s0.nextAddr, HObj.obj (("documentId", .prim (.str m.1))
          :: (attrs ++ [("id", .prim pi)]))) :: s0.heap,
         nextAddr := s0.nextAddr + 1, visiting := vis,
         mappings := m.2.mappings, revMappings := m.2.revMappings,
         clock := m.2.clock } : TState).heap (.ref s0.nextAddr) =
      ("documentId", .prim (.str m.1)) :: (attrs ++ [("id", .prim pi)]) := by
    intro vis
    simp [spreadFields, hGet]
  have ha2 : removeFieldV attrs "documentId" = attrs :=
    removeFieldV_eq_self attrs "documentId" hkeys2
  have ha1 : removeFieldV attrs "id" = attrs :=
    removeFieldV_eq_self attrs "id" hkeys1
  have hrm : removeFieldV (removeFieldV
      (("documentId", Val.prim (.str m.1)) :: (attrs ++ [("id", Val.prim pi)]))
      "documentId") "id" = attrs := by
    simp only [removeFieldV, List.filter_append, List.filter_cons] at ha1 ha2 ⊢
    simp [ha1, ha2]
    intro k v hkv
    exact ⟨hkeys1 (k, v) hkv, hkeys2 (k, v) hkv⟩
  have hitem : transformV5ItemToV4 (g + 1) (.ref s0.nextAddr)
      defaultTransformOptions
      ({ heap := (s0.nextAddr, HObj.obj (("documentId", .prim (.str m.1))
          :: (attrs ++ [("id", .prim pi)]))) :: s0.heap,
         nextAddr := s0.nextAddr + 1, visiting := [s0.nextAddr],
         mappings := m.2.mappings, revMappings := m.2.revMappings,
         clock := m.2.clock } : TState) =
      some (.ref (s0.nextAddr + 2),
        { heap := (s0.nextAddr + 2,
            .obj [("id", .prim pi), ("attributes", .ref (s0.nextAddr + 1))])
            :: (s0.nextAddr + 1, .obj attrs)
            :: (s0.nextAddr, HObj.obj (("documentId", .prim (.str m.1))
                :: (attrs ++ [("id", .prim pi)]))) :: s0.heap,
          nextAddr := s0.nextAddr + 3,
          visiting := [s0.nextAddr],
          mappings := m.2.mappings, revMappings := m.2.revMappings,
          clock := m.2.clock }) := by
    rw [transformV5ItemToV4]
    rw [if_neg (by simp [vTruthy, vIsObjectType])]
    dsimp only
    rw [hdoc [s0.nextAddr]]
    rw [if_pos (by simp [vTruthy, Json.primTruthy, bne_iff_ne, hD])]
    rw [hidb [s0.nextAddr], hspb [s0.nextAddr]]
    rw [hrm]
    rw [transformFieldsNested_prims .v5 .v4 _ attrs g _ hprims (by omega)]
    dsimp only
    rw [if_pos (by simp [vTruthy, hid])]
    dsimp only [allocObj]
  have hv54 : transformV5ToV4 (g + 2) (.ref s0.nextAddr)
      defaultTransformOptions
      ({ heap := (s0.nextAddr, HObj.obj (("documentId", .prim (.str m.1))
          :: (attrs ++ [("id", .prim pi)]))) :: s0.heap,
         nextAddr := s0.nextAddr + 1, visiting := [s0.nextAddr],
         mappings := m.2.mappings, revMappings := m.2.revMappings,
         clock := m.2.clock } : TState) =
      transformV5ItemToV4 (g + 1) (.ref s0.nextAddr) defaultTransformOptions
      ({ heap := (s0.nextAddr, HObj.obj (("documentId", .prim (.str m.1))
          :: (attrs ++ [("id", .prim pi)]))) :: s0.heap,
         nextAddr := s0.nextAddr + 1, visiting := [s0.nextAddr],
         mappings := m.2.mappings, revMappings := m.2.revMappings,
         clock := m.2.clock } : TState) := by
    rw [transformV5ToV4]
    rw [if_neg (by simp [vTruthy])]
    have hga : getArr
        ({ heap := (s0.nextAddr, HObj.obj (("documentId", .prim (.str m.1))
            :: (attrs ++ [("id", .prim pi)]))) :: s0.heap,
           nextAddr := s0.nextAddr + 1, visiting := [s0.nextAddr],
           mappings := m.2.mappings, revMappings := m.2.revMappings,
           clock := m.2.clock } : TState).heap (.ref s0.nextAddr) = none := by
      simp [getArr, hGet]
    rw [hga]
  rw [transform]
  rw [if_neg (by decide)]
  dsimp only
  rw [show ({ defaultTransformOptions with
      contentType := if defaultTransformOptions.contentType = ""
        then "unknown" else defaultTransformOptions.contentType } :
      TransformationOptions) = defaultTransformOptions from rfl]
  rw [if_neg (by decide)]
  rw [if_neg (by simp)]
  rw [show transformCore (g + 3) (.ref s0.nextAddr) .v5 .v4
      defaultTransformOptions
      ({ heap := (s0.nextAddr, HObj.obj (("documentId", .prim (.str m.1))
          :: (attrs ++ [("id", .prim pi)]))) :: s0.heap,
         nextAddr := s0.nextAddr + 1, visiting := [s0.nextAddr],
         mappings := m.2.mappings, revMappings := m.2.revMappings,
         clock := m.2.clock } : TState) =
      transformV5ToV4 (g + 2) (.ref s0.nextAddr) defaultTransformOptions
      ({ heap := (s0.nextAddr, HObj.obj (("documentId", .prim (.str m.1))
          :: (attrs ++ [("id", .prim pi)]))) :: s0.heap,
         nextAddr := s0.nextAddr + 1, visiting := [s0.nextAddr],
         mappings := m.2.mappings, revMappings := m.2.revMappings,
         clock := m.2.clock } : TState) from rfl]
  rw [hv54, hitem]
  dsimp only
  rw [List.erase_cons_head]

/-- C2 (amended): for a legacy item `{id, attributes}` whose attribute
values are all primitive and whose attribute keys are distinct and avoid
`id` and `documentId`, with a registry whose document ids are nonempty,
`transform(transform(x, v4, v5), v5, v4)` rebuilds an item with the same
`id` and an `attributes` object holding exactly the original fields —
`documentId` is dropped on the way back.  (The claim as literally stated
fails when attributes carry an `id` or `documentId` key or object-valued
fields: see `transform_roundTrip_counterexample`.) -/
theorem transform_roundTrip_noRelations
    (s0 : TState) (a b : Nat) (pi : JsPrim) (attrs : List (String × Val))
    (hheapA : hGet s0.heap a =
      some (.obj [("id", .prim pi), ("attributes", .ref b)]))
    (hheapB : hGet s0.heap b = some (.obj attrs))
    (hid : Json.primTruthy pi = true)
    (hprims : ∀ kv ∈ attrs, ∃ q, kv.2 = Val.prim q)
    (hkeys1 : ∀ kv ∈ attrs, kv.1 ≠ "id")
    (hkeys2 : ∀ kv ∈ attrs, kv.1 ≠ "documentId")
    (hnodup : (attrs.map Prod.fst).Nodup)
    (hvisit : s0.visiting = [])
    (hsane : ∀ e ∈ s0.mappings, e.2.v5DocumentId ≠ "")
    (f1 f2 : Nat) (hf1 : f1 ≥ attrs.length + 6) (hf2 : f2 ≥ attrs.length + 6) :
    ∃ v1 s1 r2 b2 s2,
      transform f1 (.ref a) .v4 .v5 defaultTransformOptions s0 = some (v1, s1)
      ∧ transform f2 v1 .v5 .v4 defaultTransformOptions s1 =
          some (.ref r2, s2)
      ∧ hGet s2.heap r2 =
          some (.obj [("id", .prim pi), ("attributes", .ref b2)])
      ∧ hGet s2.heap b2 = some (.obj attrs) := by
  obtain ⟨f, hfge, rfl⟩ : ∃ f, f ≥ attrs.length + 2 ∧ f1 = f + 4 :=
    ⟨f1 - 4, by omega, by omega⟩
  obtain ⟨g, hgge, rfl⟩ : ∃ g, g ≥ attrs.length + 2 ∧ f2 = g + 4 :=
    ⟨f2 - 4, by omega, by omega⟩
  have hfwd := roundTrip_fwd s0 a b pi attrs hheapA hheapB hid hprims hkeys1
    hkeys2 hnodup hvisit f hfge
  have hbwd := roundTrip_bwd s0 a b pi attrs hheapA hheapB hid hprims hkeys1
    hkeys2 hnodup hvisit hsane g hgge
  refine ⟨.ref s0.nextAddr, fwdState s0 a pi attrs, s0.nextAddr + 2,
    s0.nextAddr + 1, bwdState s0 a pi attrs, hfwd, hbwd, ?_, ?_⟩
  · simp [bwdState, hGet]
  · have hne : ((s0.nextAddr + 2 : Nat) == s0.nextAddr + 1) = false := by
      simp
    simp [bwdState, hGet, List.find?, hne]

/-- `x = {id: 5, attributes: {id: 99}}`: a legacy item with no nested
relations whose attributes carry a field named `id`. -/
def rtBadState : TState :=
  ⟨[(0, .obj [("id", .prim (.num 5)), ("attributes", .ref 1)]),
    (1, .obj [("id", .prim (.num 99))])], 2, [], [], [], 0⟩

/-- True iff the round trip of `{id: 5, attributes: {id: 99}}` loses the
`id: 99` attribute (the rebuilt attributes read `id` as `undefined`)
although the original attributes carry `id: 99`. -/
def roundTripShadowProbe : Bool :=
  match transform 12 (.ref 0) .v4 .v5 defaultTransformOptions rtBadState with
  | some (v1, s1) =>
    match transform 12 v1 .v5 .v4 defaultTransformOptions s1 with
    | some (v2, s2) =>
      getFieldV s2.heap (getFieldV s2.heap v2 "attributes") "id"
          == Val.prim .undef
        && getFieldV rtBadState.heap
            (getFieldV rtBadState.heap (.ref 0) "id") "id"
          == Val.prim .undef
        && getFieldV rtBadState.heap
            (getFieldV rtBadState.heap (.ref 0) "attributes") "id"
          == Val.prim (.num 99)
    | none => false
  | none => false

/-- C2 (counterexample to the claim as stated): the relation-free legacy
item `{id: 5, attributes: {id: 99}}` does not round-trip — the flattened
v5 object has a single `id` slot, which `preserveOriginalId` overwrites
with the item id, so the attribute `id: 99` is gone on the way back. -/
theorem transform_roundTrip_counterexample : roundTripShadowProbe = true := by
  decide

def rtGoodState : TState :=
  ⟨[(0, .obj [("id", .prim (.num 5)), ("attributes", .ref 1)]),
    (1, .obj [("title", .prim (.str "t"))])], 2, [], [], [], 0⟩

/-- C2 (witness): the amended round-trip theorem applied to the concrete
item `{id: 5, attributes: {title: "t"}}`. -/
theorem transform_roundTrip_noRelations_witness :
    ∃ v1 s1 r2 b2 s2,
      transform 10 (.ref 0) .v4 .v5 defaultTransformOptions rtGoodState =
        some (v1, s1)
      ∧ transform 10 v1 .v5 .v4 defaultTransformOptions s1 =
          some (.ref r2, s2)
      ∧ hGet s2.heap r2 =
          some (.obj [("id", .prim (.num 5)), ("attributes", .ref b2)])
      ∧ hGet s2.heap b2 = some (.obj [("title", .prim (.str "t"))]) :=
  transform_roundTrip_noRelations rtGoodState 0 1 (.num 5)
    [("title", .prim (.str "t"))] rfl rfl rfl
    (by intro kv hkv
        have : kv = ("title", Val.prim (.str "t")) := by simpa using hkv
        exact ⟨_, by rw [this]⟩)
    (by decide) (by decide) (by decide) rfl (by simp [rtGoodState])
    10 10 (by simp) (by simp)

/-!
### C6, C7 — the id registry: round trip and index consistency

The invariant of the claims: every forward entry's document id resolves
through the reverse index to a record carrying the same legacy id and the
same content type.
-/

/-- Consistency of one forward entry against the reverse index. -/
def entryConsistentB (rs : List (String × IdMapping))
    (e : String × IdMapping) : Bool :=
  match lookupAssoc rs e.2.v5DocumentId with
  | some m2 => decide (m2.v4Id = e.2.v4Id)
      && decide (m2.contentType = e.2.contentType)
  | none => false

/-- The registry invariant of C6/C7, over the two index lists. -/
def mapperConsistentLists (ms rs : List (String × IdMapping)) : Bool :=
  ms.all (entryConsistentB rs)

/-- The registry invariant of C6/C7 on a transformer state. -/
def mapperConsistentB (s : TState) : Bool :=
  mapperConsistentLists s.mappings s.revMappings

theorem lookupAssoc_setAssoc_self {α : Type} (ms : List (String × α))
    (k : String) (m : α) :
    lookupAssoc (setAssoc ms k m) k = some m := by
  induction ms with
  | nil => simp [setAssoc, lookupAssoc]
  | cons e rest ih =>
    obtain ⟨k1, m1⟩ := e
    by_cases hk : k1 = k
    · subst hk
      simp [setAssoc, lookupAssoc]
    · simp [setAssoc, lookupAssoc, hk, ih]

theorem lookupAssoc_setAssoc_ne {α : Type} (ms : List (String × α))
    (k k2 : String) (m : α) (hne : k2 ≠ k) :
    lookupAssoc (setAssoc ms k m) k2 = lookupAssoc ms k2 := by
  induction ms with
  | nil =>
    simp only [setAssoc, lookupAssoc]
    rw [if_neg fun h => hne h.symm]
  | cons e rest ih =>
    obtain ⟨k1, m1⟩ := e
    by_cases hk : k1 = k
    · subst hk
      simp only [setAssoc, if_pos rfl, lookupAssoc]
      rw [if_neg fun h => hne h.symm, if_neg fun h => hne h.symm]
    · simp only [setAssoc, if_neg hk, lookupAssoc]
      by_cases hk2 : k1 = k2
      · rw [if_pos hk2, if_pos hk2]
      · rw [if_neg hk2, if_neg hk2, ih]

theorem lookupAssoc_deleteAssoc {α : Type} (ms : List (String × α))
    (k k2 : String) :
    lookupAssoc (deleteAssoc ms k) k2 =
      if k2 = k then none else lookupAssoc ms k2 := by
  induction ms with
  | nil =>
    simp only [deleteAssoc, List.filter_nil, lookupAssoc]
    split <;> rfl
  | cons e rest ih =>
    obtain ⟨k1, m1⟩ := e
    by_cases h1 : k1 = k
    · subst h1
      simp only [deleteAssoc, List.filter_cons] at ih ⊢
      rw [if_neg (by simp)]
      rw [ih]
      by_cases h2 : k2 = k1
      · rw [if_pos h2, if_pos h2]
      · rw [if_neg h2, if_neg h2, lookupAssoc,
          if_neg fun h => h2 h.symm]
    · simp only [deleteAssoc, List.filter_cons] at ih ⊢
      rw [if_pos (by simp [h1])]
      by_cases h2 : k1 = k2
      · subst h2
        rw [lookupAssoc, if_pos rfl, if_neg h1, lookupAssoc, if_pos rfl]
      · rw [lookupAssoc, if_neg h2, ih]
        by_cases h3 : k2 = k
        · rw [if_pos h3, if_pos h3]
        · rw [if_neg h3, if_neg h3, lookupAssoc, if_neg h2]

theorem lookupAssoc_foldl_deleteAssoc {α : Type} (ks : List String)
    (ms : List (String × α)) (k2 : String) :
    lookupAssoc (ks.foldl deleteAssoc ms) k2 =
      if k2 ∈ ks then none else lookupAssoc ms k2 := by
  induction ks generalizing ms with
  | nil => simp
  | cons k ks ih =>
    simp only [List.foldl_cons]
    rw [ih, lookupAssoc_deleteAssoc]
    by_cases h1 : k2 ∈ ks
    · simp [h1]
    · by_cases h2 : k2 = k <;> simp [h1, h2]

theorem mem_setAssoc_or {α : Type} (ms : List (String × α)) (k : String)
    (m : α) (e : String × α) (h : e ∈ setAssoc ms k m) :
    e ∈ ms ∨ e = (k, m) := by
  induction ms with
  | nil =>
    simp only [setAssoc, List.mem_singleton] at h
    exact Or.inr h
  | cons e1 rest ih =>
    obtain ⟨k1, m1⟩ := e1
    by_cases hk : k1 = k
    · subst hk
      simp only [setAssoc, if_pos rfl] at h
      rcases List.mem_cons.mp h with h | h
      · exact Or.inr h
      · exact Or.inl (List.mem_cons_of_mem _ h)
    · simp only [setAssoc, if_neg hk] at h
      rcases List.mem_cons.mp h with h | h
      · exact Or.inl (by simp [h])
      · rcases ih h with h | h
        · exact Or.inl (List.mem_cons_of_mem _ h)
        · exact Or.inr h

theorem mem_foldl_deleteAssoc {α : Type} (ks : List String)
    (ms : List (String × α)) (e : String × α)
    (h : e ∈ ks.foldl deleteAssoc ms) : e ∈ ms ∧ e.1 ∉ ks := by
  induction ks generalizing ms with
  | nil => simpa using h
  | cons k ks ih =>
    rw [List.foldl_cons] at h
    obtain ⟨h3, h4⟩ := ih (deleteAssoc ms k) h
    simp only [deleteAssoc, List.mem_filter, decide_eq_true_eq] at h3
    refine ⟨h3.1, ?_⟩
    intro hmem
    rcases List.mem_cons.mp hmem with h7 | h7
    · exact h3.2 h7
    · exact h4 h7

theorem mapperConsistentLists_setBoth (ms rs : List (String × IdMapping))
    (k : String) (m : IdMapping)
    (hInv : mapperConsistentLists ms rs = true)
    (hfresh : ∀ e ∈ ms, e.2.v5DocumentId ≠ m.v5DocumentId) :
    mapperConsistentLists (setAssoc ms k m)
      (setAssoc rs m.v5DocumentId m) = true := by
  rw [mapperConsistentLists, List.all_eq_true]
  rw [mapperConsistentLists, List.all_eq_true] at hInv
  intro e he
  rcases mem_setAssoc_or _ _ _ _ he with he | he
  · have hi := hInv e he
    rw [entryConsistentB] at hi ⊢
    rw [lookupAssoc_setAssoc_ne _ _ _ _ (hfresh e he)]
    exact hi
  · subst he
    rw [entryConsistentB]
    dsimp only
    rw [lookupAssoc_setAssoc_self]
    simp

theorem mapV4ToV5_preserves_consistency (v : Val) (T : String) (s : TState)
    (hInv : mapperConsistentB s = true)
    (hfresh : ∀ e ∈ s.mappings,
      e.2.v5DocumentId ≠ generateDocumentId v T s.heap s.clock) :
    mapperConsistentB (mapV4ToV5 v T s).2 = true := by
  unfold mapV4ToV5
  dsimp only
  cases h : lookupAssoc s.mappings (T ++ ":" ++ jsKeyString s.heap v) with
  | some m => exact hInv
  | none =>
    dsimp only [mapperConsistentB]
    exact mapperConsistentLists_setBoth _ _ _ _ hInv hfresh

theorem clearMappingsForContentType_preserves_consistency (T : String)
    (s : TState) (hInv : mapperConsistentB s = true) :
    mapperConsistentB (clearMappingsForContentType T s) = true := by
  rw [mapperConsistentB, mapperConsistentLists, List.all_eq_true] at hInv
  rw [clearMappingsForContentType, mapperConsistentB]
  dsimp only
  rw [mapperConsistentLists, List.all_eq_true]
  intro e he
  obtain ⟨heMem, hKeys⟩ := mem_foldl_deleteAssoc _ _ _ he
  have hi := hInv e heMem
  have hcnT : e.2.contentType ≠ T := by
    intro hcT
    apply hKeys
    exact List.mem_map.mpr
      ⟨e, List.mem_filter.mpr ⟨heMem, by simp [hcT]⟩, rfl⟩
  rw [entryConsistentB] at hi ⊢
  cases hr : lookupAssoc s.revMappings e.2.v5DocumentId with
  | none => rw [hr] at hi; exact absurd hi (by simp)
  | some m2 =>
    rw [hr] at hi
    simp only [Bool.and_eq_true, decide_eq_true_eq] at hi
    have hNotDel : e.2.v5DocumentId ∉ (List.filter
        (fun e => decide (e.2.contentType = T)) s.mappings).map
        fun e => e.2.v5DocumentId := by
      intro hIn
      obtain ⟨t, htMem, htEq⟩ := List.mem_map.mp hIn
      obtain ⟨htMs, htT⟩ := List.mem_filter.mp htMem
      have hit := hInv t htMs
      rw [entryConsistentB, htEq, hr] at hit
      simp only [Bool.and_eq_true, decide_eq_true_eq] at hit
      apply hcnT
      rw [← hi.2, hit.2]
      exact of_decide_eq_true htT
    rw [lookupAssoc_foldl_deleteAssoc, if_neg hNotDel, hr]
    simp [hi.1, hi.2]

theorem importFold_consistent (entries : List (String × IdMapping)) :
    ∀ acc : TState, mapperConsistentB acc = true →
    (∀ e ∈ acc.mappings, ∀ en ∈ entries,
      e.2.v5DocumentId ≠ en.2.v5DocumentId) →
    (entries.map fun en => en.2.v5DocumentId).Nodup →
    mapperConsistentB (entries.foldl
      (fun acc e =>
        { acc with
          mappings := setAssoc acc.mappings e.1 e.2,
          revMappings := setAssoc acc.revMappings e.2.v5DocumentId e.2 })
      acc) = true := by
  induction entries with
  | nil => intro acc hInv _ _; simpa using hInv
  | cons en rest ih =>
    intro acc hInv hsep hnd
    rw [List.map_cons, List.nodup_cons] at hnd
    rw [List.foldl_cons]
    apply ih
    · exact mapperConsistentLists_setBoth _ _ _ _ hInv
        fun e he => hsep e he en (List.mem_cons_self _ _)
    · intro e he en2 hen2
      rcases mem_setAssoc_or _ _ _ _ he with he | he
      · exact hsep e he en2 (List.mem_cons_of_mem _ hen2)
      · subst he
        dsimp only
        intro heq
        apply hnd.1
        rw [heq]
        exact List.mem_map.mpr ⟨en2, hen2, rfl⟩
    · exact hnd.2

theorem importMappings_preserves_consistency
    (entries : List (String × IdMapping)) (s : TState)
    (hnd : (entries.map fun en => en.2.v5DocumentId).Nodup) :
    mapperConsistentB (importMappings entries s) = true := by
  rw [importMappings]
  refine importFold_consistent entries (clearMappings s) rfl ?_ hnd
  intro e he
  simp [clearMappings] at he

/-- An empty registry state. -/
def c6Base : TState := ⟨[], 0, [], [], [], 0⟩

/-- The state after registering the string id `"5"` for `api::a.a`. -/
def c6State : TState := (mapV4ToV5 (.prim (.str "5")) "api::a.a" c6Base).2

/-- C6 counterexample.  The claim quantifies over every legacy id with the
registry state implicit; the forward key is built by string coercion, so
the number `5` and the string `"5"` collide on the key `api::a.a:5`.
After `mapV4ToV5("5", "api::a.a")` has registered the string id, the round
trip for the numeric id `5` returns the stored `v4Id` — the string `"5"`,
not the number `5` — so strict equality (and the claim's "numeric legacyId
comes back as the same number") fails. -/
theorem mapV5ToV4_mapV4ToV5_counterexample :
    mapV5ToV4
      (.prim (.str (mapV4ToV5 (.prim (.num 5)) "api::a.a" c6State).1))
      "api::a.a" (mapV4ToV5 (.prim (.num 5)) "api::a.a" c6State).2
      ≠ some (.prim (.num 5)) := by
  decide

theorem mapV5ToV4_str (d : String) (T : String) (s : TState) :
    mapV5ToV4 (.prim (.str d)) T s =
      match lookupAssoc s.revMappings d with
      | some m => if m.contentType = T then some m.v4Id
          else mapV5ToV4Scan d T s
      | none => mapV5ToV4Scan d T s := rfl

/-- C6 (amended).  In a state whose registry indices are mutually
consistent and whose forward entry at the key of `(v, T)` — if any —
actually records the pair `(v, T)`, the round trip
`mapV5ToV4 (mapV4ToV5 v T) T` returns exactly the original legacy id `v`
(in particular a numeric id comes back as the same number).  Both
hypotheses hold in a fresh registry and rule out exactly the key-collision
and imported-entry situations of the counterexample. -/
theorem mapV5ToV4_mapV4ToV5_roundTrip (v : Val) (T : String) (s : TState)
    (hInv : mapperConsistentB s = true)
    (hKey : ∀ m, lookupAssoc s.mappings
      (T ++ ":" ++ jsKeyString s.heap v) = some m →
      m.v4Id = v ∧ m.contentType = T) :
    mapV5ToV4 (.prim (.str (mapV4ToV5 v T s).1)) T
      (mapV4ToV5 v T s).2 = some v := by
  unfold mapV4ToV5
  dsimp only
  cases h : lookupAssoc s.mappings (T ++ ":" ++ jsKeyString s.heap v) with
  | some m =>
    dsimp only
    obtain ⟨hv, hT⟩ := hKey m h
    have hmem := lookupAssoc_mem _ _ _ h
    rw [mapperConsistentB, mapperConsistentLists, List.all_eq_true] at hInv
    have hi := hInv _ hmem
    rw [entryConsistentB] at hi
    dsimp only at hi
    cases hr : lookupAssoc s.revMappings m.v5DocumentId with
    | none => rw [hr] at hi; exact absurd hi (by simp)
    | some m2 =>
      rw [hr] at hi
      simp only [Bool.and_eq_true, decide_eq_true_eq] at hi
      rw [mapV5ToV4_str, hr]
      dsimp only
      rw [if_pos (hi.2.trans hT), hi.1, hv]
  | none =>
    dsimp only
    rw [mapV5ToV4_str]
    dsimp only
    rw [lookupAssoc_setAssoc_self]
    dsimp only
    rw [if_pos rfl]

theorem mapV5ToV4_mapV4ToV5_roundTrip_witness :
    mapV5ToV4
      (.prim (.str (mapV4ToV5 (.prim (.num 7))
        "api::article.article" c6Base).1))
      "api::article.article"
      (mapV4ToV5 (.prim (.num 7)) "api::article.article" c6Base).2
      = some (.prim (.num 7)) :=
  mapV5ToV4_mapV4ToV5_roundTrip (.prim (.num 7)) "api::article.article"
    c6Base (by decide)
    (by intro m h; simp [c6Base, lookupAssoc] at h)

/-- A consistent one-entry registry for the C7 witness. -/
def c7Mapping : IdMapping :=
  ⟨.prim (.num 3), "a_3_0_r0", "api::a.a", "0"⟩

def c7State : TState :=
  ⟨[], 0, [], [("api::a.a:3", c7Mapping)], [("a_3_0_r0", c7Mapping)], 1⟩

/-- Two imported entries sharing one document id. -/
def c7DupEntries : List (String × IdMapping) :=
  [("api::a.a:1", ⟨.prim (.num 1), "d", "api::a.a", "0"⟩),
   ("api::a.a:2", ⟨.prim (.num 2), "d", "api::a.a", "0"⟩)]

/-- C7 counterexample.  From a consistent registry, `importMappings` with
two entries that share a document id leaves the indices inconsistent: the
reverse index keeps only the later record, so the earlier forward entry's
document id resolves to the wrong legacy id.  The export format keys
records by forward key only, so nothing stops such input from reaching the
importer. -/
theorem importMappings_inconsistency_counterexample :
    mapperConsistentB c7State = true ∧
    mapperConsistentB (importMappings c7DupEntries c7State) = false := by
  constructor <;> decide

/-- C7 (amended).  From any state satisfying the registry invariant, all
four mutating operations preserve it, with the caveats the counterexamples
force: `mapV4ToV5` needs the synthesized document id to be fresh (in the
code this is supplied by the timestamp-plus-random suffix, not checked),
and `importMappings` needs the imported document ids to be pairwise
distinct.  `clearMappings` and `clearMappingsForContentType` preserve it
unconditionally — the latter's paired deletes stay aligned because, under
the invariant, a document id determines its record's content type.
`importMappings` does rebuild both indices, as the claim says. -/
theorem idMapper_ops_preserve_invariant (s : TState)
    (hInv : mapperConsistentB s = true) :
    (∀ v T, (∀ e ∈ s.mappings,
        e.2.v5DocumentId ≠ generateDocumentId v T s.heap s.clock) →
      mapperConsistentB (mapV4ToV5 v T s).2 = true)
    ∧ mapperConsistentB (clearMappings s) = true
    ∧ (∀ T, mapperConsistentB (clearMappingsForContentType T s) = true)
    ∧ (∀ entries : List (String × IdMapping),
        (entries.map fun en => en.2.v5DocumentId).Nodup →
        mapperConsistentB (importMappings entries s) = true) :=
  ⟨fun v T hfresh => mapV4ToV5_preserves_consistency v T s hInv hfresh,
   rfl,
   fun T => clearMappingsForContentType_preserves_consistency T s hInv,
   fun entries hnd => importMappings_preserves_consistency entries s hnd⟩

theorem idMapper_ops_preserve_invariant_witness :
    mapperConsistentB (mapV4ToV5 (.prim (.num 9)) "api::a.a" c7State).2
      = true ∧
    mapperConsistentB (clearMappingsForContentType "api::a.a" c7State)
      = true :=
  ⟨(idMapper_ops_preserve_invariant c7State (by decide)).1
      (.prim (.num 9)) "api::a.a" (by decide),
   (idMapper_ops_preserve_invariant c7State (by decide)).2.2.1 "api::a.a"⟩

/-!
### C8 — `normalizePagination`
-/

/-- A heap holding the object `{page: "abc"}` at address 0. -/
def c8BadState : TState :=
  ⟨[(0, .obj [("page", .prim (.str "abc"))])], 1, [], [], [], 0⟩

/-- C8 counterexample.  The claim says every field is coerced to an
integer and clamped (`page` to ≥ 1).  A truthy non-numeric string defeats
this: `parseInt("abc", 10)` is `NaN`, and `Math.max(1, NaN)` is `NaN`, so
`normalizePagination({page: "abc"}).page` is `NaN` — neither an integer
nor ≥ 1. -/
theorem normalizePagination_nan_counterexample :
    getFieldV (normalizePagination (.ref 0) c8BadState).2.heap
      (normalizePagination (.ref 0) c8BadState).1 "page"
      = .prim .nan := by
  decide

/-- C8 (amended).  When the pagination value is truthy and each field —
after the `||`-defaulting with `"1"`, `"25"`, `"1"`, `"0"`, which covers
the missing-field defaults — parses to an integer, the result is a fresh
object whose fields are the claimed clamps: `page = max 1 p`,
`pageSize = min 100 (max 1 ps)`, `pageCount = max 1 pc`,
`total = max 0 t`, which satisfy `page ≥ 1`, `1 ≤ pageSize ≤ 100`,
`pageCount ≥ 1` and `total ≥ 0`.  Fields whose parse is `NaN` fall outside
this (the counterexample). -/
theorem normalizePagination_clamps (pag : Val) (s : TState)
    (p ps pc t : Int)
    (hTruthy : vTruthy pag = true)
    (hp : jsParseInt s.heap
      (jsOr (getFieldV s.heap pag "page") (.prim (.str "1"))) = .num p)
    (hps : jsParseInt s.heap
      (jsOr (getFieldV s.heap pag "pageSize") (.prim (.str "25")))
      = .num ps)
    (hpc : jsParseInt s.heap
      (jsOr (getFieldV s.heap pag "pageCount") (.prim (.str "1")))
      = .num pc)
    (ht : jsParseInt s.heap
      (jsOr (getFieldV s.heap pag "total") (.prim (.str "0"))) = .num t) :
    normalizePagination pag s =
      (.ref s.nextAddr,
       { s with
         heap := (s.nextAddr, .obj
           [("page", .prim (.num (max 1 p))),
            ("pageSize", .prim (.num (min 100 (max 1 ps)))),
            ("pageCount", .prim (.num (max 1 pc))),
            ("total", .prim (.num (max 0 t)))]) :: s.heap,
         nextAddr := s.nextAddr + 1 })
    ∧ 1 ≤ max 1 p ∧ 1 ≤ min 100 (max 1 ps) ∧ min 100 (max 1 ps) ≤ 100
    ∧ 1 ≤ max 1 pc ∧ 0 ≤ max 0 t := by
  refine ⟨?_, le_max_left 1 p, ?_, min_le_left 100 _,
    le_max_left 1 pc, le_max_left 0 t⟩
  · rw [normalizePagination, hTruthy]
    dsimp only
    rw [if_neg (by decide)]
    rw [hp, hps, hpc, ht]
    rfl
  · have h1 : (1 : Int) ≤ max 1 ps := le_max_left 1 ps
    omega

def c8Heap : List (Nat × HObj) :=
  [(0, .obj [("page", .prim (.str "-5")),
             ("pageSize", .prim (.str "500"))])]

def c8State : TState := ⟨c8Heap, 1, [], [], [], 0⟩

theorem normalizePagination_clamps_witness :
    normalizePagination (.ref 0) c8State =
      (.ref 1,
       { c8State with
         heap := (1, .obj
           [("page", .prim (.num (max 1 (-5)))),
            ("pageSize", .prim (.num (min 100 (max 1 500)))),
            ("pageCount", .prim (.num (max 1 1))),
            ("total", .prim (.num (max 0 0)))]) :: c8State.heap,
         nextAddr := 2 })
    ∧ 1 ≤ max 1 (-5 : Int) ∧ 1 ≤ min 100 (max 1 (500 : Int))
    ∧ min 100 (max 1 (500 : Int)) ≤ 100
    ∧ 1 ≤ max 1 (1 : Int) ∧ 0 ≤ max 0 (0 : Int) :=
  normalizePagination_clamps (.ref 0) c8State (-5) 500 1 0
    (by decide) (by decide) (by decide) (by decide) (by decide)

/-!
### C9 — `batchTransform` error contract
-/

theorem getArr_none_iff (h : List (Nat × HObj)) (v : Val) :
    getArr h v = none ↔ vIsArray h v = false := by
  cases v with
  | prim p => simp [getArr, vIsArray]
  | ref a =>
    rw [getArr, vIsArray]
    cases hGet h a with
    | none => simp
    | some o => cases o <;> simp

theorem mapTransformList_length (xs : List Val) :
    ∀ (fuel : Nat) (src tgt : StrapiFormat) (o : TransformationOptions)
      (s : TState) (ys : List Val) (s1 : TState),
      mapTransformList fuel xs src tgt o s = some (ys, s1) →
      ys.length = xs.length := by
  induction xs with
  | nil =>
    intro fuel src tgt o s ys s1 h
    cases fuel <;>
      (rw [mapTransformList] at h
       simp only [Option.some.injEq, Prod.mk.injEq] at h
       rw [← h.1])
  | cons x rest ih =>
    intro fuel src tgt o s ys s1 h
    cases fuel with
    | zero => rw [mapTransformList] at h; exact absurd h (by simp)
    | succ fuel =>
      rw [mapTransformList] at h
      cases ht : transform fuel x src tgt o s with
      | none => rw [ht] at h; exact absurd h (by simp)
      | some p1 =>
        obtain ⟨y, sy⟩ := p1
        rw [ht] at h
        dsimp only at h
        cases hm : mapTransformList fuel rest src tgt o sy with
        | none => rw [hm] at h; exact absurd h (by simp)
        | some p2 =>
          obtain ⟨ys2, s2⟩ := p2
          rw [hm] at h
          simp only [Option.some.injEq, Prod.mk.injEq] at h
          rw [← h.1, List.length_cons, List.length_cons,
            ih fuel src tgt o sy ys2 s2 hm]

/-- C9.  `batchTransform` fails with its thrown error exactly when the
items argument is not an array; on an array it returns the element-wise
map of `transform` over the items (`mapTransformList`, one output per
input, threading the state left to right) without throwing — the only
`.error` outcome is the non-array check.  (Completion is a separate
matter: a cyclic item makes the mapped `transform` itself run forever,
which is the C1 finding, modeled as the fuel running out, not as a thrown
contract error.) -/
theorem batchTransform_error_iff_nonArray (fuel : Nat) (items : Val)
    (src tgt : StrapiFormat) (o : TransformationOptions) (s : TState) :
    ((∃ e, batchTransform fuel items src tgt o s = .error e) ↔
      vIsArray s.heap items = false)
    ∧ (∀ xs, getArr s.heap items = some xs →
        batchTransform fuel items src tgt o s =
          (match mapTransformList fuel xs src tgt o s with
           | none => .ok none
           | some (ys, s1) => .ok (some (allocObj s1 (.arr ys))))
        ∧ ∀ ys s1, mapTransformList fuel xs src tgt o s = some (ys, s1) →
            ys.length = xs.length) := by
  constructor
  · constructor
    · rintro ⟨e, he⟩
      rw [batchTransform] at he
      cases hg : getArr s.heap items with
      | none => exact (getArr_none_iff _ _).mp hg
      | some xs =>
        rw [hg] at he
        exact absurd he
          (by cases hm : mapTransformList fuel xs src tgt o s with
              | none => simp [hm]
              | some p => obtain ⟨ys, s1⟩ := p; simp [hm])
    · intro hv
      refine ⟨"batchTransform requires an array of items", ?_⟩
      rw [batchTransform, (getArr_none_iff _ _).mpr hv]
  · intro xs hg
    refine ⟨by rw [batchTransform, hg], ?_⟩
    intro ys s1 hm
    exact mapTransformList_length xs fuel src tgt o s ys s1 hm

/-!
### C10 — `transformResponse` mutates the shared `meta` object
-/

theorem hGet_cons_self (h : List (Nat × HObj)) (a : Nat) (o : HObj) :
    hGet ((a, o) :: h) a = some o := by
  simp [hGet, List.find?_cons]

theorem hGet_cons_ne (h : List (Nat × HObj)) (a b : Nat) (o : HObj)
    (hne : a ≠ b) : hGet ((b, o) :: h) a = hGet h a := by
  have hb : (b == a) = false := by
    simp only [beq_eq_false_iff_ne]
    exact fun hh => hne hh.symm
  rw [hGet, hGet, List.find?_cons]
  dsimp only
  rw [hb]

theorem lookupFieldV_setFieldV_self (fs : List (String × Val))
    (k : String) (v : Val) :
    lookupFieldV (setFieldV fs k v) k = v := by
  induction fs with
  | nil => simp [setFieldV, lookupFieldV]
  | cons e rest ih =>
    obtain ⟨k1, v1⟩ := e
    by_cases hk : k1 = k
    · subst hk
      simp [setFieldV, lookupFieldV]
    · simp [setFieldV, lookupFieldV, hk, ih]

theorem lookupFieldV_setFieldV_ne (fs : List (String × Val))
    (k k2 : String) (v : Val) (hne : k2 ≠ k) :
    lookupFieldV (setFieldV fs k v) k2 = lookupFieldV fs k2 := by
  induction fs with
  | nil =>
    simp only [setFieldV, lookupFieldV]
    rw [if_neg fun h => hne h.symm]
  | cons e rest ih =>
    obtain ⟨k1, v1⟩ := e
    by_cases hk : k1 = k
    · subst hk
      simp only [setFieldV, if_pos rfl, lookupFieldV]
      rw [if_neg fun h => hne h.symm, if_neg fun h => hne h.symm]
    · simp only [setFieldV, if_neg hk, lookupFieldV]
      by_cases hk2 : k1 = k2
      · rw [if_pos hk2, if_pos hk2]
      · rw [if_neg hk2, if_neg hk2, ih]

theorem getFieldV_ref (h : List (Nat × HObj)) (a : Nat) (k : String) :
    getFieldV h (.ref a) k =
      match hGet h a with
      | some (.obj fs) => lookupFieldV fs k
      | _ => .prim .undef := rfl

/-- C10.  `transformResponse` copies the envelope only shallowly.  For an
envelope object at address `env` whose `data` transforms successfully and
whose `meta` reference points at address `m` with a truthy `pagination`,
the call returns a fresh object whose fields are the envelope's with only
`data` replaced — every other key is carried over unchanged, same
references — while the rebuilt pagination is written into the heap cell
`m` itself.  The caller's envelope cell at `env` is untouched and still
holds the same `meta` reference, so reading `meta.pagination` through the
original envelope now yields the rebuilt object: the shared `meta` is
mutated in place. -/
theorem transformResponse_mutates_shared_meta
    (fuel : Nat) (env m : Nat) (src tgt : StrapiFormat)
    (opts : TransformationOptions) (s s1 : TState)
    (fields mfs : List (String × Val)) (d' : Val)
    (hst : (src == tgt) = false)
    (henv : hGet s.heap env = some (.obj fields))
    (hdT : vTruthy (lookupFieldV fields "data") = true)
    (htr : transform fuel (lookupFieldV fields "data") src tgt opts s
      = some (d', s1))
    (hmeta : lookupFieldV fields "meta" = .ref m)
    (hmetaCell : hGet s1.heap m = some (.obj mfs))
    (hpagT : vTruthy (lookupFieldV mfs "pagination") = true)
    (hmNe1 : m ≠ s1.nextAddr) (hmNe2 : m ≠ s1.nextAddr + 1)
    (henvFrame : hGet s1.heap env = some (.obj fields))
    (henvNe1 : env ≠ m) (henvNe2 : env ≠ s1.nextAddr)
    (henvNe3 : env ≠ s1.nextAddr + 1) :
    ∃ s4 : TState,
      transformResponse fuel (.ref env) src tgt opts s
        = some (.ref (s1.nextAddr + 1), s4)
      ∧ hGet s4.heap (s1.nextAddr + 1)
          = some (.obj (setFieldV fields "data" d'))
      ∧ (∀ k, k ≠ "data" →
          lookupFieldV (setFieldV fields "data" d') k
            = lookupFieldV fields k)
      ∧ hGet s4.heap m
          = some (.obj (setFieldV mfs "pagination" (.ref s1.nextAddr)))
      ∧ hGet s4.heap env = some (.obj fields)
      ∧ getFieldV s4.heap (getFieldV s4.heap (.ref env) "meta")
          "pagination" = .ref s1.nextAddr := by
  have hsf : spreadFields s.heap (.ref env) = fields := by
    rw [spreadFields, henv]
  have hm2 : lookupFieldV (setFieldV fields "data" d') "meta"
      = .ref m := by
    rw [lookupFieldV_setFieldV_ne _ _ _ _ (by decide), hmeta]
  have hpagV : getFieldV s1.heap (.ref m) "pagination"
      = lookupFieldV mfs "pagination" := by
    rw [getFieldV_ref, hmetaCell]
  refine ⟨{ s1 with
    heap := (s1.nextAddr + 1, .obj (setFieldV fields "data" d'))
      :: (m, .obj (setFieldV mfs "pagination" (.ref s1.nextAddr)))
      :: (s1.nextAddr, .obj (transformPaginationFields s1.heap
            (lookupFieldV mfs "pagination")))
      :: s1.heap,
    nextAddr := s1.nextAddr + 2 }, ?_, ?_, ?_, ?_, ?_, ?_⟩
  · rw [transformResponse]
    rw [if_neg (by simp [vTruthy, hst])]
    dsimp only
    rw [hsf, hdT, if_pos rfl, htr]
    dsimp only
    rw [hm2, hpagV, hpagT, if_pos rfl]
    dsimp only [allocObj]
    rw [hGet_cons_ne _ _ _ _ hmNe1, hmetaCell]
  · exact hGet_cons_self _ _ _
  · intro k hk
    exact lookupFieldV_setFieldV_ne _ _ _ _ hk
  · dsimp only
    rw [hGet_cons_ne _ _ _ _ hmNe2, hGet_cons_self]
  · dsimp only
    rw [hGet_cons_ne _ _ _ _ henvNe3, hGet_cons_ne _ _ _ _ henvNe1,
      hGet_cons_ne _ _ _ _ henvNe2, henvFrame]
  · dsimp only
    rw [getFieldV_ref]
    rw [hGet_cons_ne _ _ _ _ henvNe3, hGet_cons_ne _ _ _ _ henvNe1,
      hGet_cons_ne _ _ _ _ henvNe2, henvFrame]
    dsimp only
    rw [hmeta, getFieldV_ref, hGet_cons_ne _ _ _ _ hmNe2, hGet_cons_self]
    dsimp only
    rw [lookupFieldV_setFieldV_self]

/-- An envelope `{data: 7, meta: {pagination: {page: 2}}}` at address 0,
with `meta` at address 1 and `pagination` at address 2. -/
def c10State : TState :=
  ⟨[(0, .obj [("data", .prim (.num 7)), ("meta", .ref 1)]),
    (1, .obj [("pagination", .ref 2)]),
    (2, .obj [("page", .prim (.num 2))])], 3, [], [], [], 0⟩

theorem transformResponse_mutates_shared_meta_witness :
    ∃ s4 : TState,
      transformResponse 6 (.ref 0) .v4 .v5 defaultTransformOptions c10State
        = some (.ref 4, s4)
      ∧ hGet s4.heap 4 = some (.obj (setFieldV
          [("data", .prim (.num 7)), ("meta", .ref 1)] "data"
          (.prim (.num 7))))
      ∧ (∀ k, k ≠ "data" →
          lookupFieldV (setFieldV
            [("data", .prim (.num 7)), ("meta", .ref 1)] "data"
            (.prim (.num 7))) k
          = lookupFieldV [("data", .prim (.num 7)), ("meta", .ref 1)] k)
      ∧ hGet s4.heap 1 = some (.obj (setFieldV
          [("pagination", .ref 2)] "pagination" (.ref 3)))
      ∧ hGet s4.heap 0
          = some (.obj [("data", .prim (.num 7)), ("meta", .ref 1)])
      ∧ getFieldV s4.heap (getFieldV s4.heap (.ref 0) "meta")
          "pagination" = .ref 3 :=
  transformResponse_mutates_shared_meta 6 0 1 .v4 .v5
    defaultTransformOptions c10State c10State
    [("data", .prim (.num 7)), ("meta", .ref 1)]
    [("pagination", .ref 2)] (.prim (.num 7))
    (by decide) (by decide) (by decide) (by decide) (by decide)
    (by decide) (by decide) (by decide) (by decide) (by decide)
    (by decide) (by decide) (by decide)

end StrapiSpec
